import Mathlib

/-!
# kokaq REPL: session state machine and command dispatcher

A shallow embedding of `cmd/root.go`.  The Go methods of `ReplClient` become
functions on an explicit `World` (the session fields, what was written to
standard output, the calls made on the queue-service client, and whether the
process has exited).  The queue-service client (`github.com/kokaq/client/sdk`)
is not part of the repository; it is a parameter `Remote` that answers every
call, and may answer differently depending on the calls made before.  A lookup
of a queue that returns an error hands back a handle that may be nil; a
handler that goes on to use a nil handle ends the process with a panic.
-/

namespace Kokaq

/-! ## Data model -/

/-- The session fields of `ReplClient` (`ctx` and `client` are handles of the
client library and carry no data of the shell). -/
structure ReplClient where
  address : String
  currentNamespace : String
  currentQueue : String
  deriving DecidableEq, Repr

/-- Modelled from the spec: the failure-reason enumeration of
`github.com/kokaq/protocol/proto`, of which the source names only
`FailureReason_PROCESSING_ERROR` ("processing error"); `OTHER` stands for
every other value of the enumeration. -/
inductive FailureReason where
  | PROCESSING_ERROR
  | OTHER (code : Nat)
  deriving DecidableEq, Repr

/-- The two fields of `proto.KokaqMessageResponse.Message` the shell reads. -/
structure Message where
  MessageId : String
  Priority : Nat
  deriving DecidableEq, Repr

/-- One call made on the queue-service client.  Calls made through a
namespace or queue handle carry the names the handle was requested for. -/
inductive Call where
  | CreateNamespace (ns : String)
  | GetNamespaceClient (ns : String)
  | NamespaceDelete (ns : String)
  | CreateQueue (ns q : String)
  | GetQueueClient (ns q : String)
  | QueueDelete (ns q : String)
  | Send (ns q : String) (body : String) (prio : Nat)
  | PollAndProcess (ns q : String) (batch : Nat)
  | Ack (ns q : String) (messageId lockId : String)
  | Nack (ns q : String) (messageId lockId : String) (reason : FailureReason)
      (requeue : Bool)
  | PeekAndProcess (ns q : String) (count wait : Nat)
  deriving DecidableEq, Repr

/-- What a call on the client returns: the error (`none` is Go's `nil`,
`some e` carries the text of `err.Error()`), the string the shell reads from
the result (`resp.Namespace` of `CreateNamespace`, the message id of `Send`),
the batches handed to the callback of `PollAndProcess`, one list per
invocation, the messages handed to the callback of `PeekAndProcess`, one
per invocation, and, for a `GetQueueClient` that returns an error, whether the
handle returned together with the error is nil (`nilHandle`; a lookup that
returns no error returns a handle that can be used). -/
structure Reply where
  err : Option String
  value : String
  batches : List (List Message)
  peeked : List Message
  nilHandle : Bool
  deriving DecidableEq, Repr

/-- The behaviour of the queue-service client: the reply to a call, given the
calls made before it.  The client library is outside the repository, so every
statement quantifies over it.  Calls made on a handle that is not nil are
assumed to return. -/
abbrev Remote := List Call → Call → Reply

/-- Everything `executor` can read or change: the session, the lines written
to standard output (one entry per `Println`/`Printf`, without the final
newline), the calls made on the client so far, and the exit status once
the process has ended (`os.Exit`, or a panic of the Go runtime). -/
structure World where
  repl : ReplClient
  out : List String
  calls : List Call
  exited : Option Nat
  deriving DecidableEq, Repr

/-- `NewReplClient`: only `address` is set; both selections start empty. -/
def NewReplClient (address : String) : ReplClient :=
  { address := address, currentNamespace := "", currentQueue := "" }

/-- The world at shell start. -/
def World.init (address : String) : World :=
  { repl := NewReplClient address, out := [], calls := [], exited := none }

/-- `ReplClient.promptPrefix`: the prompt shown for the current selection. -/
def promptPrefix (repl : ReplClient) : String :=
  if repl.currentNamespace ≠ "" ∧ repl.currentQueue ≠ "" then
    "kokaq [ns: " ++ repl.currentNamespace ++ "] [q: " ++ repl.currentQueue ++ "] > "
  else if repl.currentNamespace ≠ "" ∧ repl.currentQueue = "" then
    "kokaq [ns: " ++ repl.currentNamespace ++ "] > "
  else "kokaq > "

/-- `fmt.Println` of one already formatted line. -/
def println (w : World) (s : String) : World :=
  { w with out := w.out ++ [s] }

/-- `os.Exit(code)`. -/
def osExit (w : World) (code : Nat) : World :=
  { w with exited := some code }

/-- Whether the queue handle `qc` returned by a lookup is nil: only a lookup
that returned an error may have handed back a nil handle. -/
def handleIsNil (qc : Reply) : Bool :=
  qc.err.isSome && qc.nilHandle

/-- A method called on a nil queue handle (`qc.Sender()`, `qc.Receiver()`):
the nil pointer is dereferenced, the Go runtime panics and the process ends
with exit status 2; nothing more is written to standard output. -/
def nilPointerPanic (w : World) : World :=
  { w with exited := some 2 }

/-- A call on the client: the reply comes from the remote behaviour and the
call is appended to the record. -/
def invoke (r : Remote) (w : World) (c : Call) : Reply × World :=
  (r w.calls c, { w with calls := w.calls ++ [c] })

/-! ## `strings.Fields` -/

/-- `unicode.IsSpace`: the Latin-1 spaces and the code points with the
White_Space property. -/
def isSpace (c : Char) : Bool :=
  let n := c.toNat
  n == 0x09 || n == 0x0A || n == 0x0B || n == 0x0C || n == 0x0D || n == 0x20 ||
  n == 0x85 || n == 0xA0 || n == 0x1680 || (0x2000 ≤ n && n ≤ 0x200A) ||
  n == 0x2028 || n == 0x2029 || n == 0x202F || n == 0x205F || n == 0x3000

/-- The scanning loop of `strings.Fields`: `cur` holds the characters of the
field being read, last character first. -/
def fieldsAux (cur : List Char) : List Char → List String
  | [] => if cur = [] then [] else [String.mk cur.reverse]
  | c :: cs =>
    if isSpace c then
      if cur = [] then fieldsAux [] cs
      else String.mk cur.reverse :: fieldsAux [] cs
    else fieldsAux (c :: cur) cs

/-- `strings.Fields`: the maximal runs of non-space characters, in order. -/
def fields (s : String) : List String :=
  fieldsAux [] s.data

/-! ## `fmt.Sscanf(tok, "%d", &prio)` with `prio` a `uint64` -/

/-- The digits accepted by the verb `%d`. -/
def isDecimalDigit (c : Char) : Bool :=
  48 ≤ c.toNat && c.toNat ≤ 57

/-- `SkipSpace` of the scanner: spaces are dropped, and a newline is an
error for `Sscanf` (`none`). -/
def skipSpace : List Char → Option (List Char)
  | [] => some []
  | c :: cs =>
    if c = '\n' then none
    else if isSpace c then skipSpace cs
    else some (c :: cs)

/-- The value of a run of decimal digits read after the value `acc`. -/
def decimalValue (acc : Nat) : List Char → Nat
  | [] => acc
  | c :: cs => decimalValue (acc * 10 + (c.toNat - 48)) cs

/-- `scanUint` for the verb `%d` and 64 bits: after leading space the longest
run of decimal digits is taken (`scanNumber`), which must not be empty, and
its value (`strconv.ParseUint(tok, 10, 64)`) must be below `2^64`.  What
follows the digits stays unread. -/
def scanUint (cs : List Char) : Option Nat :=
  match skipSpace cs with
  | none => none
  | some rest =>
    let tok := rest.takeWhile isDecimalDigit
    if tok = [] then none
    else if decimalValue 0 tok < 2 ^ 64 then some (decimalValue 0 tok)
    else none

/-- `fmt.Sscanf(s, "%d", &prio)`: `some prio` when the returned error is nil.
The format ends after the verb, and input left over is not an error. -/
def sscanfUint64 (s : String) : Option Nat :=
  match skipSpace s.data with
  | none => none
  | some rest => scanUint rest

/-! ## The handlers -/

/-- The guide printed by `help`. -/
def helpText : String :=
"kokaq repl help guide

This interactive shell lets you manage namespaces and queues, 
and perform message operations on a distributed priority queue system.

Namespace Commands
  namespace create <namespace>   Create a new namespace
  namespace delete <namespace>   Delete an existing namespace
  namespace list                 List all namespaces
  namespace use <namespace>      Set current namespace

Queue Commands
  queue create <queue>           Create a new queue in current namespace
  queue delete <queue>           Delete a queue from current namespace
  queue list                     List queues in selected namespace
  queue use <queue>              Set current queue

Message Commands
  enqueue <message> <priority>   Enqueue message with 64-bit priority
  dequeue                        Dequeue highest-priority message
  ack <messageID> <lockID>       Acknowledge successful message
  nack <messageID> <lockID>      Mark message as failed
  peek                           Peek highest-priority message

Utility
  help                           Show help menu

Notes
- You must first 'namespace use' and then 'queue use' before message operations.
- Press Ctrl+C to cancel ongoing operations."

/-- The line every message operation prints when a selection is missing. -/
def selectFirstMsg : String :=
  "Set namespace and queue first using 'namespace use' and 'queue use'"

/-- The line `queue` prints when no namespace is selected. -/
def namespaceFirstMsg : String :=
  "Set namespace first using 'namespace use'"

/-- Assignment to `repl.currentNamespace`. -/
def setNamespace (w : World) (ns : String) : World :=
  { w with repl := { w.repl with currentNamespace := ns } }

/-- Assignment to `repl.currentQueue`. -/
def setQueue (w : World) (q : String) : World :=
  { w with repl := { w.repl with currentQueue := q } }

/-- `ReplClient.handleNamespace`. -/
def handleNamespace (r : Remote) (w : World) (args : List String) : World :=
  if args.length = 0 then println w "namespace: missing subcommand"
  else
    let sub := args.getD 0 ""
    if sub = "create" then
      if args.length < 2 then println w "usage: namespace use <name>"
      else
        let currentNamespace := args.getD 1 ""
        let (resp, w1) := invoke r w (Call.CreateNamespace currentNamespace)
        match resp.err with
        | some e => println w1 ("Error: " ++ e)
        | none =>
          let w2 := println w1 ("Created namespace: " ++ resp.value)
          let w3 := setNamespace w2 currentNamespace
          println w3 ("Selected namespace: " ++ args.getD 1 "")
    else if sub = "delete" then
      if args.length < 2 then println w "usage: namespace use <name>"
      else
        let currentNamespace := args.getD 1 ""
        let (nc, w1) := invoke r w (Call.GetNamespaceClient currentNamespace)
        match nc.err with
        | some e => println w1 ("Error: " ++ e)
        | none =>
          let (del, w2) := invoke r w1 (Call.NamespaceDelete currentNamespace)
          match del.err with
          | some e => println w2 ("Error: cannot delete namespace: " ++ e)
          | none =>
            let w3 := setNamespace w2 ""
            println w3 ("Deleted namespace: " ++ args.getD 1 "")
    else if sub = "use" then
      if args.length < 2 then println w "usage: namespace use <name>"
      else
        let currentNamespace := args.getD 1 ""
        let (nc, w1) := invoke r w (Call.GetNamespaceClient currentNamespace)
        match nc.err with
        | some e => println w1 ("Error: " ++ e)
        | none =>
          let w2 := setNamespace w1 currentNamespace
          println w2 ("Selected namespace: " ++ args.getD 1 "")
    else if sub = "list" then println w "Namespaces: ns1, ns2"
    else println w "namespace: unknown subcommand"

/-- `ReplClient.handleQueue`.  In the `use` case the source assigns
`repl.currentQueue` before the lookup and once more after it. -/
def handleQueue (r : Remote) (w : World) (args : List String) : World :=
  if args.length = 0 then println w "queue: missing subcommand"
  else if w.repl.currentNamespace = "" then println w namespaceFirstMsg
  else
    let sub := args.getD 0 ""
    if sub = "create" then
      if args.length < 2 then println w "usage: queue create <name>"
      else
        let currentQueue := args.getD 1 ""
        let (resp, w1) :=
          invoke r w (Call.CreateQueue w.repl.currentNamespace currentQueue)
        match resp.err with
        | some e => println w1 ("Error: " ++ e)
        | none =>
          let w2 := setQueue w1 currentQueue
          let w3 := println w2 ("Created queue: " ++ w2.repl.currentQueue)
          println w3 ("Selected queue: " ++ w3.repl.currentQueue)
    else if sub = "delete" then
      if args.length < 2 then println w "usage: namespace use <name>"
      else
        let currentQueue := args.getD 1 ""
        let (nc, w1) :=
          invoke r w (Call.GetQueueClient w.repl.currentNamespace currentQueue)
        match nc.err with
        | some e => println w1 ("Error: " ++ e)
        | none =>
          let (del, w2) :=
            invoke r w1 (Call.QueueDelete w1.repl.currentNamespace currentQueue)
          match del.err with
          | some e => println w2 ("Error: cannot delete namespace: " ++ e)
          | none =>
            let w3 := setQueue w2 ""
            println w3 ("Deleted namespace: " ++ args.getD 1 "")
    else if sub = "use" then
      if args.length < 2 then println w "usage: queue use <name>"
      else
        let w0 := setQueue w (args.getD 1 "")
        let currentQueue := args.getD 1 ""
        let (nc, w1) :=
          invoke r w0 (Call.GetQueueClient w0.repl.currentNamespace currentQueue)
        match nc.err with
        | some e => println w1 ("Error: " ++ e)
        | none =>
          let w2 := setQueue w1 currentQueue
          println w2 ("Selected queue: " ++ w2.repl.currentQueue)
    else if sub = "list" then println w "Queues: q1, q2"
    else println w "queue: unknown subcommand"

/-- `ReplClient.handleEnqueue`.  After a failed `GetQueueClient` the source
prints a line and goes on to `qc.Sender().Send` on the handle returned with
the error: a panic when that handle is nil, the call otherwise. -/
def handleEnqueue (r : Remote) (w : World) (args : List String) : World :=
  if w.repl.currentNamespace = "" ∨ w.repl.currentQueue = "" then
    println w selectFirstMsg
  else if args.length < 3 ∨ args.getD (args.length - 2) "" ≠ "priority" then
    println w "usage: enqueue <message> priority <uint64>"
  else
    let msg := String.intercalate " " (args.take (args.length - 2))
    match sscanfUint64 (args.getD (args.length - 1) "") with
    | none => println w "Invalid priority value"
    | some prio =>
      let (qc, w1) :=
        invoke r w (Call.GetQueueClient w.repl.currentNamespace w.repl.currentQueue)
      let w2 :=
        match qc.err with
        | some _ => println w1 "Error: cannot enqueue message"
        | none => w1
      if handleIsNil qc then nilPointerPanic w2
      else
        let (res, w3) :=
          invoke r w2 (Call.Send w.repl.currentNamespace w.repl.currentQueue msg prio)
        match res.err with
        | some e => println w3 ("enqueue error: " ++ e)
        | none =>
          println w3 ("Eequeued message: " ++ res.value ++ ", Priority: " ++ toString prio)

/-- The line the callback of `handleDequeue` prints for one message. -/
def dequeuedLine (m : Message) : String :=
  "Dequeued message: " ++ m.MessageId ++ ", Priority: " ++ toString m.Priority

/-- The line the callback of `handlePeek` prints for one message. -/
def peekedLine (m : Message) : String :=
  "Peeked message: " ++ m.MessageId ++ ", Priority: " ++ toString m.Priority

/-- `ReplClient.handleDequeue`: the callback prints one line per message of
every batch it is handed, and returns nil.  After a failed `GetQueueClient`
the source prints a line and goes on to `qc.Receiver()` on the handle returned
with the error. -/
def handleDequeue (r : Remote) (w : World) : World :=
  if w.repl.currentNamespace = "" ∨ w.repl.currentQueue = "" then
    println w selectFirstMsg
  else
    let (qc, w1) :=
      invoke r w (Call.GetQueueClient w.repl.currentNamespace w.repl.currentQueue)
    let w2 :=
      match qc.err with
      | some _ => println w1 "Error: cannot enqueue message"
      | none => w1
    if handleIsNil qc then nilPointerPanic w2
    else
      let (res, w3) :=
        invoke r w2 (Call.PollAndProcess w.repl.currentNamespace w.repl.currentQueue 1)
      let w4 := { w3 with out := w3.out ++ (res.batches.flatten.map dequeuedLine) }
      match res.err with
      | some e => println w4 ("dequeue error: " ++ e)
      | none => w4

/-- `ReplClient.handleAck`.  After a failed `GetQueueClient` the source prints
a line and goes on to `qc.Receiver().Ack` on the handle returned with the
error. -/
def handleAck (r : Remote) (w : World) (args : List String) : World :=
  if args.length < 2 then println w "usage: ack <message_id> <lock_id>"
  else if w.repl.currentNamespace = "" ∨ w.repl.currentQueue = "" then
    println w selectFirstMsg
  else
    let (qc, w1) :=
      invoke r w (Call.GetQueueClient w.repl.currentNamespace w.repl.currentQueue)
    let w2 :=
      match qc.err with
      | some _ => println w1 "Error: cannot ack message"
      | none => w1
    if handleIsNil qc then nilPointerPanic w2
    else
      let (res, w3) :=
        invoke r w2 (Call.Ack w.repl.currentNamespace w.repl.currentQueue
          (args.getD 0 "") (args.getD 1 ""))
      match res.err with
      | some e => println w3 ("ack error: " ++ e)
      | none => println w3 "ack done"

/-- `ReplClient.handleNack`.  After a failed `GetQueueClient` the source
prints a line and goes on to `qc.Receiver().Nack` on the handle returned with
the error. -/
def handleNack (r : Remote) (w : World) (args : List String) : World :=
  if args.length < 2 then println w "usage: nack <message_id> <lock_id>"
  else if w.repl.currentNamespace = "" ∨ w.repl.currentQueue = "" then
    println w selectFirstMsg
  else
    let (qc, w1) :=
      invoke r w (Call.GetQueueClient w.repl.currentNamespace w.repl.currentQueue)
    let w2 :=
      match qc.err with
      | some _ => println w1 "Error: cannot ack message"
      | none => w1
    if handleIsNil qc then nilPointerPanic w2
    else
      let (res, w3) :=
        invoke r w2 (Call.Nack w.repl.currentNamespace w.repl.currentQueue
          (args.getD 0 "") (args.getD 1 "") FailureReason.PROCESSING_ERROR true)
      match res.err with
      | some e => println w3 ("nack error: " ++ e)
      | none => println w3 "nack done"

/-- `ReplClient.handlePeek`.  After a failed `GetQueueClient` the source
prints a line and goes on to `qc.Receiver().PeekAndProcess` on the handle
returned with the error. -/
def handlePeek (r : Remote) (w : World) : World :=
  if w.repl.currentNamespace = "" ∨ w.repl.currentQueue = "" then
    println w selectFirstMsg
  else
    let (qc, w1) :=
      invoke r w (Call.GetQueueClient w.repl.currentNamespace w.repl.currentQueue)
    let w2 :=
      match qc.err with
      | some _ => println w1 "Error: cannot peek message"
      | none => w1
    if handleIsNil qc then nilPointerPanic w2
    else
      let (res, w3) :=
        invoke r w2 (Call.PeekAndProcess w.repl.currentNamespace w.repl.currentQueue 1 0)
      let w4 := { w3 with out := w3.out ++ (res.peeked.map peekedLine) }
      match res.err with
      | some e => println w4 ("peek error: " ++ e)
      | none => w4

/-- `ReplClient.executor`: one input line. -/
def executor (r : Remote) (w : World) (line : String) : World :=
  let args := fields line
  if args.length = 0 then w
  else
    let verb := args.getD 0 ""
    if verb = "help" then osExit (println w helpText) 0
    else if verb = "exit" then osExit (println w "Bye!") 0
    else if verb = "namespace" then handleNamespace r w (args.drop 1)
    else if verb = "queue" then handleQueue r w (args.drop 1)
    else if verb = "enqueue" then handleEnqueue r w (args.drop 1)
    else if verb = "dequeue" then handleDequeue r w
    else if verb = "ack" then handleAck r w (args.drop 1)
    else if verb = "nack" then handleNack r w (args.drop 1)
    else if verb = "peek" then handlePeek r w
    else println w ("Unknown command: " ++ line)

/-- The prompt loop: lines are executed in order until the process exits. -/
def run (r : Remote) (w : World) : List String → World
  | [] => w
  | l :: ls => if w.exited.isSome then w else run r (executor r w l) ls

/-! ## Remote behaviours and worlds used in the concrete runs -/

/-- A remote client every call of which succeeds, `Send` returning the
message id `m-1`, and which delivers no message. -/
def okRemote : Remote :=
  fun _ _ => { err := none, value := "m-1", batches := [], peeked := [], nilHandle := false }

/-- A remote client every call of which returns the error `boom`; its lookups
hand back a handle that is not nil together with the error. -/
def failingRemote : Remote :=
  fun _ _ => { err := some "boom", value := "", batches := [], peeked := [], nilHandle := false }

/-- A remote client every call of which returns the error `boom`; its lookups
hand back a nil handle together with the error, as is the convention in Go. -/
def nilHandleRemote : Remote :=
  fun _ _ => { err := some "boom", value := "", batches := [], peeked := [], nilHandle := true }

/-- A session with namespace `ns1` and queue `q0` selected, nothing printed
and no call made yet. -/
def selectedWorld : World :=
  { repl := { address := ":9000", currentNamespace := "ns1", currentQueue := "q0" },
    out := [], calls := [], exited := none }

/-- A remote client whose lookups succeed and whose `PollAndProcess` hands the
callback two batches, of two messages and of one message, and then returns
an error. -/
def deliveringRemote : Remote :=
  fun _ c =>
    match c with
    | Call.PollAndProcess _ _ _ =>
      { err := some "timeout", value := "",
        batches := [[⟨"m-1", 5⟩, ⟨"m-2", 3⟩], [⟨"m-3", 9⟩]], peeked := [], nilHandle := false }
    | _ => { err := none, value := "", batches := [], peeked := [], nilHandle := false }

/-! ## Spelling an input line from its tokens -/

/-- A string of whitespace characters only (possibly empty). -/
def isBlank (s : String) : Bool :=
  s.data.all isSpace

/-- A token: a non-empty string without any whitespace character. -/
def isToken (s : String) : Bool :=
  !s.data.isEmpty && s.data.all (fun c => !isSpace c)

/-- A separator: a non-empty string of whitespace characters. -/
def isSeparator (s : String) : Bool :=
  !s.data.isEmpty && isBlank s

/-- The text made of every token of `toks` followed by its separator, and then
`tail`. -/
def spell : List (String × String) → String → String
  | [], tail => tail
  | (tok, sep) :: rest, tail => tok ++ sep ++ spell rest tail

/-- The line `enqueue w1 ... wk priority n`: optional leading whitespace
`lead`, the verb and the separator `s0` after it, the body tokens `ws` each
with the separator after it, the word `priority` and the separator `sp` after
it, the decimal numeral of `n`, and optional trailing whitespace `trail`. -/
def enqueueLine (lead s0 : String) (ws : List (String × String)) (sp : String) (n : Nat)
    (trail : String) : String :=
  lead ++ spell (("enqueue", s0) :: ws ++ [("priority", sp)]) (toString n ++ trail)

/-! ## The session invariant -/

/-- The invariant of the session: a selected queue comes with a selected
namespace. -/
def queueScoped (w : World) : Prop :=
  w.repl.currentQueue ≠ "" → w.repl.currentNamespace ≠ ""

instance (w : World) : Decidable (queueScoped w) := by
  unfold queueScoped
  infer_instance

/-- Whether one of the calls `cs`, made after the calls `pre`, is the `Delete`
of a namespace handle that returned no error. -/
def namespaceDeletedAfter (r : Remote) (pre : List Call) : List Call → Bool
  | [] => false
  | c :: cs =>
    (match c with
      | Call.NamespaceDelete _ => (r pre c).err.isNone
      | _ => false) || namespaceDeletedAfter r (pre ++ [c]) cs

/-- Whether, in the run of `lines` from the world `w`, some line made a
`Delete` call on a namespace handle that returned no error while
`currentQueue` was not empty, that is, whether a namespace deletion succeeded
while a queue was selected. -/
def deletedUnderQueue (r : Remote) (w : World) : List String → Bool
  | [] => false
  | l :: ls =>
    if w.exited.isSome then false
    else
      ((w.repl.currentQueue != "") &&
        namespaceDeletedAfter r w.calls ((executor r w l).calls.drop w.calls.length)) ||
      deletedUnderQueue r (executor r w l) ls

/-! ## Tokenizer facts -/

theorem fieldsAux_blank (s rest : List Char) (hs : ∀ c ∈ s, isSpace c = true) :
    fieldsAux [] (s ++ rest) = fieldsAux [] rest := by
  induction s with
  | nil => rfl
  | cons c cs ih =>
    have hc : isSpace c = true := hs c (List.mem_cons_self c cs)
    have hcs : ∀ d ∈ cs, isSpace d = true := fun d hd => hs d (List.mem_cons_of_mem c hd)
    simp [fieldsAux, hc, ih hcs]

theorem fields_blank (line : String) (h : ∀ c ∈ line.data, isSpace c = true) :
    fields line = [] := by
  have h1 := fieldsAux_blank line.data [] h
  simpa [fields, fieldsAux] using h1

/-! ## C10: blank lines -/

/-- C10: on a line made only of whitespace characters (the empty line
included) `executor` returns the world it was given: nothing is printed, no
call is made on the client, the process does not exit and the session is
unchanged. -/
theorem blank_line_noop (r : Remote) (w : World) (line : String)
    (h : ∀ c ∈ line.data, isSpace c = true) : executor r w line = w := by
  simp [executor, fields_blank line h]

theorem blank_line_noop_witness :
    executor failingRemote selectedWorld " \t  " = selectedWorld :=
  blank_line_noop failingRemote selectedWorld " \t  " (by decide)

/-! ## C1: a failed `queue use` -/

/-- C1: evaluation at the failing input.  With namespace `ns1` and queue `q0`
selected, `queue use q1` whose lookup returns an error prints the error line
and leaves `currentQueue` equal to `q1`, not to `q0`. -/
theorem queue_use_failed_lookup_changes_queue :
    (executor failingRemote selectedWorld "queue use q1").out = ["Error: boom"] ∧
    (executor failingRemote selectedWorld "queue use q1").calls
      = [Call.GetQueueClient "ns1" "q1"] ∧
    selectedWorld.repl.currentQueue = "q0" ∧
    (executor failingRemote selectedWorld "queue use q1").repl.currentQueue = "q1" := by
  decide

/-! ## C3: the namespace guard of `queue` -/

/-- C3: with no namespace selected, a `queue` line with at least one token
after the verb makes no call on the client, leaves the session unchanged, does
not exit, and prints exactly the line telling the user to set a namespace
first. -/
theorem queue_guard (r : Remote) (w : World) (line sub : String) (rest : List String)
    (hns : w.repl.currentNamespace = "") (hl : fields line = "queue" :: sub :: rest) :
    (executor r w line).calls = w.calls ∧ (executor r w line).repl = w.repl ∧
    (executor r w line).exited = w.exited ∧
    (executor r w line).out = w.out ++ ["Set namespace first using 'namespace use'"] := by
  simp [executor, hl, handleQueue, hns, println, namespaceFirstMsg]

theorem queue_guard_witness :
    (executor okRemote (World.init ":9000") "queue create X").calls = [] ∧
    (executor okRemote (World.init ":9000") "queue create X").repl
      = NewReplClient ":9000" ∧
    (executor okRemote (World.init ":9000") "queue create X").exited = none ∧
    (executor okRemote (World.init ":9000") "queue create X").out
      = [] ++ ["Set namespace first using 'namespace use'"] :=
  queue_guard okRemote (World.init ":9000") "queue create X" "create" ["X"] rfl (by decide)

/-! ## C4: the selection guard of the message operations -/

/-- C4, as stated, fails: with nothing selected, `ack a1` prints the usage
line of `ack`, not the line about selecting a namespace and a queue. -/
theorem message_guard_ack_counterexample :
    (executor okRemote (World.init ":9000") "ack a1").out
      = ["usage: ack <message_id> <lock_id>"] ∧
    (executor okRemote (World.init ":9000") "ack a1").out
      ≠ ["Set namespace and queue first using 'namespace use' and 'queue use'"] := by
  decide

/-- C4, amended: when the namespace or the queue is not selected, each of
`enqueue`, `dequeue`, `ack`, `nack`, `peek` makes no call on the client, leaves
the session unchanged and does not exit; the one line printed is the
select-first message, except for `ack` and `nack` with fewer than two
arguments, which print their usage line. -/
theorem message_guard (r : Remote) (w : World) (line verb : String) (args : List String)
    (hsel : w.repl.currentNamespace = "" ∨ w.repl.currentQueue = "")
    (hv : verb ∈ ["enqueue", "dequeue", "ack", "nack", "peek"])
    (hl : fields line = verb :: args) :
    (executor r w line).calls = w.calls ∧ (executor r w line).repl = w.repl ∧
    (executor r w line).exited = w.exited ∧
    (executor r w line).out = w.out ++
      [if (verb = "ack" ∨ verb = "nack") ∧ args.length < 2
       then "usage: " ++ verb ++ " <message_id> <lock_id>"
       else "Set namespace and queue first using 'namespace use' and 'queue use'"] := by
  simp only [List.mem_cons, List.mem_singleton, List.not_mem_nil, or_false] at hv
  rcases hv with rfl | rfl | rfl | rfl | rfl <;>
    simp [executor, hl, handleEnqueue, handleDequeue, handleAck, handleNack, handlePeek, hsel,
      println, selectFirstMsg] <;>
    split <;> simp_all [println]

theorem message_guard_witness :
    (executor okRemote (World.init ":9000") "nack a1 l1").calls = [] ∧
    (executor okRemote (World.init ":9000") "nack a1 l1").repl = NewReplClient ":9000" ∧
    (executor okRemote (World.init ":9000") "nack a1 l1").exited = none ∧
    (executor okRemote (World.init ":9000") "nack a1 l1").out = [] ++
      [if ("nack" = "ack" ∨ "nack" = "nack") ∧ ["a1", "l1"].length < 2
       then "usage: " ++ "nack" ++ " <message_id> <lock_id>"
       else "Set namespace and queue first using 'namespace use' and 'queue use'"] :=
  message_guard okRemote (World.init ":9000") "nack a1 l1" "nack" ["a1", "l1"]
    (Or.inl rfl) (by decide) (by decide)

/-! ## C7: the usage error of `enqueue` -/

theorem getD_penultimate (pre : List String) (p last : String) :
    (pre ++ [p, last]).getD ((pre ++ [p, last]).length - 2) "" = p := by
  have h : (pre ++ [p, last]).length - 2 = pre.length := by simp
  rw [h, List.getD_eq_getElem?_getD, List.getElem?_append_right (le_refl _)]
  simp

theorem penultimate_shape (args : List String) (h : 3 ≤ args.length) :
    ∃ pre last, args = pre ++ [args.getD (args.length - 2) "", last] := by
  refine ⟨args.take (args.length - 2), args.getD (args.length - 1) "", ?_⟩
  apply List.ext_getElem
  · simp; omega
  · intro i h1 h2
    by_cases hi : i < args.length - 2
    · simp [List.getElem_append_left, hi, List.getElem_take]
    · have : i = args.length - 2 ∨ i = args.length - 1 := by omega
      rcases this with rfl | rfl
      · rw [List.getElem_append_right (by simp)]
        simp [List.getD_eq_getElem?_getD, List.getElem?_eq_getElem h1]
      · rw [List.getElem_append_right (by simp; omega)]
        have h3 : min (args.length - 2) args.length = args.length - 2 := by omega
        have h4 : args.length - 1 - (args.length - 2) = 1 := by omega
        simp [List.getD_eq_getElem?_getD, List.getElem?_eq_getElem h1, h3, h4]

theorem executor_enqueue (r : Remote) (w : World) (line : String) (args : List String)
    (hl : fields line = "enqueue" :: args) : executor r w line = handleEnqueue r w args := by
  simp [executor, hl]

theorem handleEnqueue_usage (r : Remote) (w : World) (args : List String)
    (hsel : ¬ (w.repl.currentNamespace = "" ∨ w.repl.currentQueue = ""))
    (hcode : args.length < 3 ∨ args.getD (args.length - 2) "" ≠ "priority") :
    handleEnqueue r w args = println w "usage: enqueue <message> priority <uint64>" := by
  unfold handleEnqueue
  rw [if_neg hsel, if_pos hcode]

/-- C7: an `enqueue` line with fewer than 3 tokens after the verb, or whose
second-to-last token is not `priority`, makes no call on the client, leaves
the session unchanged and does not exit; with namespace and queue both
selected the one line printed is the usage line of `enqueue` (otherwise it is
the select-first message). -/
theorem enqueue_usage (r : Remote) (w : World) (line : String) (args : List String)
    (hl : fields line = "enqueue" :: args)
    (hbad : args.length < 3 ∨ ¬ ∃ pre last, args = pre ++ ["priority", last]) :
    (executor r w line).calls = w.calls ∧ (executor r w line).repl = w.repl ∧
    (executor r w line).exited = w.exited ∧
    (w.repl.currentNamespace ≠ "" ∧ w.repl.currentQueue ≠ "" →
      (executor r w line).out = w.out ++ ["usage: enqueue <message> priority <uint64>"]) ∧
    (w.repl.currentNamespace = "" ∨ w.repl.currentQueue = "" →
      (executor r w line).out = w.out ++
        ["Set namespace and queue first using 'namespace use' and 'queue use'"]) := by
  have hcode : args.length < 3 ∨ args.getD (args.length - 2) "" ≠ "priority" := by
    rcases hbad with h | h
    · exact Or.inl h
    · by_cases h3 : args.length < 3
      · exact Or.inl h3
      · right
        intro hp
        obtain ⟨pre, last, hshape⟩ := penultimate_shape args (by omega)
        exact h ⟨pre, last, by rw [hp] at hshape; exact hshape⟩
  by_cases hsel : w.repl.currentNamespace = "" ∨ w.repl.currentQueue = ""
  · have hsel2 : ¬ (w.repl.currentNamespace ≠ "" ∧ w.repl.currentQueue ≠ "") := by
      rcases hsel with h | h <;> simp [h]
    simp [executor, hl, handleEnqueue, hsel, hsel2, println, selectFirstMsg]
  · have hsel2 : w.repl.currentNamespace ≠ "" ∧ w.repl.currentQueue ≠ "" := by
      constructor <;> intro h <;> simp [h] at hsel
    rw [executor_enqueue r w line args hl, handleEnqueue_usage r w args hsel hcode]
    simp [hsel, hsel2, println]

theorem enqueue_usage_witness :
    (executor okRemote selectedWorld "enqueue oops").calls = [] ∧
    (executor okRemote selectedWorld "enqueue oops").out
      = ["usage: enqueue <message> priority <uint64>"] :=
  have h := enqueue_usage okRemote selectedWorld "enqueue oops" ["oops"] (by decide)
    (Or.inl (by decide))
  ⟨h.1, h.2.2.2.1 (by decide)⟩

/-! ## C8: the arity of `ack` and `nack` -/

/-- C8, as stated, fails: with namespace and queue selected, `ack a1 l1 extra`
(three tokens after the verb) reports no usage error; it forwards the
acknowledgement of `(a1, l1)` and prints the success line. -/
theorem ack_three_arguments_counterexample :
    (executor okRemote selectedWorld "ack a1 l1 extra").calls
      = [Call.GetQueueClient "ns1" "q0", Call.Ack "ns1" "q0" "a1" "l1"] ∧
    (executor okRemote selectedWorld "ack a1 l1 extra").out = ["ack done"] := by
  decide

/-- C8, amended: `ack` and `nack` require at least 2 arguments.  With fewer
than 2 tokens after the verb the handler prints its usage line, makes no call
on the client, leaves the session unchanged and does not exit; with 2 or more,
the tokens after the second are ignored: the line does what the line with only
the first two arguments does. -/
theorem ack_nack_arity (r : Remote) (w : World) (line verb : String) (args : List String)
    (hv : verb = "ack" ∨ verb = "nack") (hl : fields line = verb :: args) :
    (args.length < 2 →
      (executor r w line).calls = w.calls ∧ (executor r w line).repl = w.repl ∧
      (executor r w line).exited = w.exited ∧
      (executor r w line).out = w.out ++ ["usage: " ++ verb ++ " <message_id> <lock_id>"]) ∧
    (2 ≤ args.length → ∀ line2 : String, fields line2 = verb :: args.take 2 →
      executor r w line = executor r w line2) := by
  constructor
  · intro hlen
    rcases hv with rfl | rfl <;>
      simp [executor, hl, handleAck, handleNack, hlen, println]
  · intro hlen line2 hl2
    match args, hlen with
    | a :: b :: rest, _ =>
      rcases hv with rfl | rfl <;>
        simp [executor, hl, hl2, handleAck, handleNack]

theorem ack_nack_arity_witness :
    (executor okRemote selectedWorld "ack a1").calls = [] ∧
    (executor okRemote selectedWorld "ack a1").repl = selectedWorld.repl ∧
    (executor okRemote selectedWorld "ack a1").exited = none ∧
    (executor okRemote selectedWorld "ack a1").out
      = [] ++ ["usage: " ++ "ack" ++ " <message_id> <lock_id>"] :=
  (ack_nack_arity okRemote selectedWorld "ack a1" "ack" ["a1"] (Or.inl rfl) (by decide)).1
    (by decide)

/-! ## C9: forwarding of `ack` and `nack` -/

/-- C9: with namespace and queue selected and the lookup of the selected queue
returning no error, `ack a b` asks the client for the selected queue and then
makes exactly one `Ack` call with `(a, b)`; `nack a b` likewise makes exactly
one `Nack` call with `(a, b)`, the reason `PROCESSING_ERROR` and the
redelivery flag set.  The one line printed is the success line when that call
returns no error and the error line otherwise.  The session is unchanged and
the process does not exit. -/
theorem ack_nack_forwarding (r : Remote) (w : World) (line a b : String)
    (hns : w.repl.currentNamespace ≠ "") (hq : w.repl.currentQueue ≠ "")
    (hres : (r w.calls
      (Call.GetQueueClient w.repl.currentNamespace w.repl.currentQueue)).err = none) :
    (fields line = ["ack", a, b] →
      (executor r w line).calls = w.calls ++
        [Call.GetQueueClient w.repl.currentNamespace w.repl.currentQueue,
         Call.Ack w.repl.currentNamespace w.repl.currentQueue a b] ∧
      (executor r w line).repl = w.repl ∧ (executor r w line).exited = w.exited ∧
      (executor r w line).out = w.out ++
        [match (r (w.calls ++
              [Call.GetQueueClient w.repl.currentNamespace w.repl.currentQueue])
            (Call.Ack w.repl.currentNamespace w.repl.currentQueue a b)).err with
          | some e => "ack error: " ++ e
          | none => "ack done"]) ∧
    (fields line = ["nack", a, b] →
      (executor r w line).calls = w.calls ++
        [Call.GetQueueClient w.repl.currentNamespace w.repl.currentQueue,
         Call.Nack w.repl.currentNamespace w.repl.currentQueue a b
           FailureReason.PROCESSING_ERROR true] ∧
      (executor r w line).repl = w.repl ∧ (executor r w line).exited = w.exited ∧
      (executor r w line).out = w.out ++
        [match (r (w.calls ++
              [Call.GetQueueClient w.repl.currentNamespace w.repl.currentQueue])
            (Call.Nack w.repl.currentNamespace w.repl.currentQueue a b
              FailureReason.PROCESSING_ERROR true)).err with
          | some e => "nack error: " ++ e
          | none => "nack done"]) := by
  constructor <;> intro hl <;>
    simp only [executor, hl, handleAck, handleNack, invoke, println] <;>
    simp [hns, hq, hres, handleIsNil] <;>
    split <;> simp_all

theorem ack_nack_forwarding_witness :
    (executor okRemote selectedWorld "ack a1 l1").calls
      = [Call.GetQueueClient "ns1" "q0", Call.Ack "ns1" "q0" "a1" "l1"] ∧
    (executor okRemote selectedWorld "ack a1 l1").out = ["ack done"] :=
  have h := (ack_nack_forwarding okRemote selectedWorld "ack a1 l1" "a1" "l1"
    (by decide) (by decide) rfl).1 (by decide)
  ⟨h.1, h.2.2.2⟩

/-! ## C6: what `Sscanf` accepts as a priority -/

/-- C6: evaluation at the failing input.  `Sscanf` with `%d` reads the leading
digits and leaves the rest of the token unread, so `42abc` and `5.0` are
accepted as 42 and 5: with namespace and queue selected,
`enqueue hello priority 42abc` reports no error and sends `hello` with
priority 42.  Tokens without a leading digit and numerals from `2^64` on are
rejected. -/
theorem enqueue_priority_trailing_text_accepted :
    sscanfUint64 "42abc" = some 42 ∧ sscanfUint64 "5.0" = some 5 ∧
    sscanfUint64 "abc" = none ∧ sscanfUint64 "-1" = none ∧
    sscanfUint64 "18446744073709551616" = none ∧
    (executor okRemote selectedWorld "enqueue hello priority abc").out
      = ["Invalid priority value"] ∧
    (executor okRemote selectedWorld "enqueue hello priority 42abc").calls
      = [Call.GetQueueClient "ns1" "q0", Call.Send "ns1" "q0" "hello" 42] ∧
    (executor okRemote selectedWorld "enqueue hello priority 42abc").out
      = ["Eequeued message: m-1, Priority: 42"] := by
  decide

/-! ## Tokenizing a spelled line -/

theorem fieldsAux_run (t cur rest : List Char) (ht : ∀ c ∈ t, isSpace c = false) :
    fieldsAux cur (t ++ rest) = fieldsAux (t.reverse ++ cur) rest := by
  induction t generalizing cur with
  | nil => rfl
  | cons c cs ih =>
    have hc : isSpace c = false := ht c (List.mem_cons_self c cs)
    have hcs : ∀ d ∈ cs, isSpace d = false := fun d hd => ht d (List.mem_cons_of_mem c hd)
    simp [fieldsAux, hc, ih (c :: cur) hcs]

theorem fieldsAux_close (cur s rest : List Char) (hcur : cur ≠ []) (hs : s ≠ [])
    (hb : ∀ c ∈ s, isSpace c = true) :
    fieldsAux cur (s ++ rest) = String.mk cur.reverse :: fieldsAux [] rest := by
  cases s with
  | nil => exact absurd rfl hs
  | cons c cs =>
    have hc : isSpace c = true := hb c (List.mem_cons_self c cs)
    have hcs : ∀ d ∈ cs, isSpace d = true := fun d hd => hb d (List.mem_cons_of_mem c hd)
    simp [fieldsAux, hc, hcur, fieldsAux_blank cs rest hcs]

theorem fieldsAux_last (cur s : List Char) (hcur : cur ≠ [])
    (hb : ∀ c ∈ s, isSpace c = true) :
    fieldsAux cur s = [String.mk cur.reverse] := by
  cases s with
  | nil => simp [fieldsAux, hcur]
  | cons c cs =>
    have h := fieldsAux_close cur (c :: cs) [] hcur (by simp) hb
    simpa [fieldsAux] using h

theorem isBlank_iff (s : String) : isBlank s = true ↔ ∀ c ∈ s.data, isSpace c = true := by
  simp [isBlank]

theorem isToken_iff (s : String) :
    isToken s = true ↔ s.data ≠ [] ∧ ∀ c ∈ s.data, isSpace c = false := by
  simp [isToken]

theorem isSeparator_iff (s : String) :
    isSeparator s = true ↔ s.data ≠ [] ∧ ∀ c ∈ s.data, isSpace c = true := by
  simp [isSeparator, isBlank]

theorem fieldsAux_spell (toks : List (String × String)) (last trail : String)
    (htoks : ∀ p ∈ toks, isToken p.1 = true ∧ isSeparator p.2 = true)
    (hlast : isToken last = true) (htrail : isBlank trail = true) :
    fieldsAux [] (spell toks (last ++ trail)).data = toks.map Prod.fst ++ [last] := by
  induction toks with
  | nil =>
    obtain ⟨h1, h2⟩ := (isToken_iff last).1 hlast
    have h3 := (isBlank_iff trail).1 htrail
    simp only [spell, String.data_append, List.map_nil, List.nil_append]
    rw [fieldsAux_run last.data [] trail.data h2,
      fieldsAux_last _ trail.data (by simpa using h1) h3]
    simp
  | cons p rest ih =>
    obtain ⟨tok, sep⟩ := p
    obtain ⟨ht, hs⟩ := htoks (tok, sep) (List.mem_cons_self _ _)
    obtain ⟨h1, h2⟩ := (isToken_iff tok).1 ht
    obtain ⟨h3, h4⟩ := (isSeparator_iff sep).1 hs
    have ih2 := ih (fun q hq => htoks q (List.mem_cons_of_mem _ hq))
    simp only [spell, String.data_append, List.map_cons, List.cons_append, List.append_assoc]
    rw [fieldsAux_run tok.data [] _ h2,
      fieldsAux_close _ sep.data _ (by simpa using h1) h3 h4, ih2]
    simp

theorem fields_spell (lead : String) (toks : List (String × String)) (last trail : String)
    (hlead : isBlank lead = true)
    (htoks : ∀ p ∈ toks, isToken p.1 = true ∧ isSeparator p.2 = true)
    (hlast : isToken last = true) (htrail : isBlank trail = true) :
    fields (lead ++ spell toks (last ++ trail)) = toks.map Prod.fst ++ [last] := by
  simp only [fields, String.data_append]
  rw [fieldsAux_blank lead.data _ ((isBlank_iff lead).1 hlead)]
  exact fieldsAux_spell toks last trail htoks hlast htrail

/-! ## Reading back a decimal numeral -/

theorem digitChar_spec (m : Nat) (h : m < 10) :
    isDecimalDigit (Nat.digitChar m) = true ∧ isSpace (Nat.digitChar m) = false ∧
    (Nat.digitChar m).toNat - 48 = m := by
  have hm : m = 0 ∨ m = 1 ∨ m = 2 ∨ m = 3 ∨ m = 4 ∨ m = 5 ∨ m = 6 ∨ m = 7 ∨ m = 8 ∨ m = 9 := by
    omega
  rcases hm with rfl | rfl | rfl | rfl | rfl | rfl | rfl | rfl | rfl | rfl <;>
    exact ⟨rfl, rfl, rfl⟩

theorem decimalValue_singleton (acc : Nat) (c : Char) :
    decimalValue acc [c] = acc * 10 + (c.toNat - 48) := rfl

theorem decimalValue_append (acc : Nat) (a b : List Char) :
    decimalValue acc (a ++ b) = decimalValue (decimalValue acc a) b := by
  induction a generalizing acc with
  | nil => rfl
  | cons c cs ih => exact ih (acc * 10 + (c.toNat - 48))

theorem toDigitsCore_spec (fuel : Nat) : ∀ (n : Nat) (ds : List Char), n < fuel →
    ∃ pre, Nat.toDigitsCore 10 fuel n ds = pre ++ ds ∧ pre ≠ [] ∧
      (∀ c ∈ pre, isDecimalDigit c = true ∧ isSpace c = false) ∧
      ∀ acc, decimalValue acc pre = acc * 10 ^ pre.length + n := by
  induction fuel with
  | zero => intro n ds h; omega
  | succ f ih =>
    intro n ds h
    obtain ⟨hd1, hd2, hd3⟩ := digitChar_spec (n % 10) (Nat.mod_lt n (by decide))
    by_cases h0 : n / 10 = 0
    · refine ⟨[Nat.digitChar (n % 10)], ?_, by simp, ?_, ?_⟩
      · simp [Nat.toDigitsCore, h0]
      · intro c hc
        simp only [List.mem_singleton] at hc
        subst hc
        exact ⟨hd1, hd2⟩
      · intro acc
        have hmod : n % 10 = n := by omega
        rw [decimalValue_singleton, hd3, hmod, List.length_singleton, pow_one]
    · have hlt : n / 10 < f := by omega
      obtain ⟨pre, h1, _, h3, h4⟩ := ih (n / 10) (Nat.digitChar (n % 10) :: ds) hlt
      refine ⟨pre ++ [Nat.digitChar (n % 10)], ?_, by simp, ?_, ?_⟩
      · simp [Nat.toDigitsCore, h0, h1]
      · intro c hc
        rcases List.mem_append.1 hc with hc | hc
        · exact h3 c hc
        · simp only [List.mem_singleton] at hc
          subst hc
          exact ⟨hd1, hd2⟩
      · intro acc
        rw [decimalValue_append, h4 acc, decimalValue_singleton, hd3, List.length_append,
          List.length_singleton, pow_succ]
        have hdm := Nat.div_add_mod n 10
        generalize 10 ^ pre.length = k
        generalize n / 10 = a at hdm
        generalize n % 10 = b at hdm
        subst hdm
        ring

theorem toString_data_spec (n : Nat) :
    (toString n).data ≠ [] ∧
    (∀ c ∈ (toString n).data, isDecimalDigit c = true ∧ isSpace c = false) ∧
    decimalValue 0 (toString n).data = n := by
  obtain ⟨pre, h1, h2, h3, h4⟩ := toDigitsCore_spec (n + 1) n [] (Nat.lt_succ_self n)
  have hd : (toString n).data = pre := by
    show (Nat.repr n).data = pre
    simp [Nat.repr, Nat.toDigits, List.asString, h1]
  rw [hd]
  exact ⟨h2, h3, by simpa using h4 0⟩

theorem isToken_toString (n : Nat) : isToken (toString n) = true := by
  obtain ⟨h1, h2, _⟩ := toString_data_spec n
  exact (isToken_iff _).2 ⟨h1, fun c hc => (h2 c hc).2⟩

theorem skipSpace_token (l : List Char) (h : ∀ c ∈ l, isSpace c = false) :
    skipSpace l = some l := by
  cases l with
  | nil => rfl
  | cons c cs =>
    have hc : isSpace c = false := h c (List.mem_cons_self c cs)
    have hnl : c ≠ '\n' := by
      intro he
      rw [he] at hc
      exact absurd hc (by decide)
    simp [skipSpace, hc, hnl]

theorem sscanfUint64_toString (n : Nat) (hn : n < 2 ^ 64) :
    sscanfUint64 (toString n) = some n := by
  obtain ⟨h1, h2, h3⟩ := toString_data_spec n
  have hs := skipSpace_token (toString n).data (fun c hc => (h2 c hc).2)
  have ht : List.takeWhile isDecimalDigit (toString n).data = (toString n).data :=
    List.takeWhile_eq_self_iff.2 (fun c hc => (h2 c hc).1)
  simp only [sscanfUint64, scanUint, hs, ht, h3]
  have hn2 : n < 18446744073709551616 := by simpa using hn
  simp [h1, hn2]

/-! ## C5: what `enqueue` sends -/

theorem handleEnqueue_send (r : Remote) (w : World) (body : List String) (tok : String)
    (prio : Nat) (hns : w.repl.currentNamespace ≠ "") (hq : w.repl.currentQueue ≠ "")
    (hbody : body ≠ []) (hp : sscanfUint64 tok = some prio)
    (hres : (r w.calls
      (Call.GetQueueClient w.repl.currentNamespace w.repl.currentQueue)).err = none) :
    handleEnqueue r w (body ++ ["priority", tok]) =
      { repl := w.repl
        out := w.out ++
          [match (r (w.calls ++
                [Call.GetQueueClient w.repl.currentNamespace w.repl.currentQueue])
              (Call.Send w.repl.currentNamespace w.repl.currentQueue
                (" ".intercalate body) prio)).err with
            | some e => "enqueue error: " ++ e
            | none => "Eequeued message: " ++
                (r (w.calls ++
                  [Call.GetQueueClient w.repl.currentNamespace w.repl.currentQueue])
                (Call.Send w.repl.currentNamespace w.repl.currentQueue
                  (" ".intercalate body) prio)).value ++ ", Priority: " ++ toString prio]
        calls := w.calls ++
          [Call.GetQueueClient w.repl.currentNamespace w.repl.currentQueue,
           Call.Send w.repl.currentNamespace w.repl.currentQueue (" ".intercalate body) prio]
        exited := w.exited } := by
  have hlen : (body ++ ["priority", tok]).length = body.length + 2 := by simp
  have hpos : 0 < body.length := List.length_pos.2 hbody
  have h1 : ¬ (w.repl.currentNamespace = "" ∨ w.repl.currentQueue = "") := by
    simp [hns, hq]
  have h2 : ¬ ((body ++ ["priority", tok]).length < 3 ∨
      (body ++ ["priority", tok]).getD ((body ++ ["priority", tok]).length - 2) ""
        ≠ "priority") := by
    rw [getD_penultimate, hlen]
    simp
    omega
  have h3 : (body ++ ["priority", tok]).take ((body ++ ["priority", tok]).length - 2)
      = body := by
    rw [hlen]
    simp
  have h4 : (body ++ ["priority", tok]).getD ((body ++ ["priority", tok]).length - 1) ""
      = tok := by
    have h : (body ++ ["priority", tok]).length - 1 = body.length + 1 := by omega
    rw [h, List.getD_eq_getElem?_getD, List.getElem?_append_right (by omega)]
    simp
  unfold handleEnqueue
  rw [if_neg h1, if_neg h2, h3, h4, hp]
  simp only [invoke, println]
  simp [handleIsNil, hres]
  split <;> simp_all

/-- C5: with namespace and queue selected, the line made of `enqueue`, a
non-empty list of tokens `w1 .. wk` (any of which may be the word `priority`),
the word `priority` and the decimal numeral of `n < 2^64`, with any non-empty
whitespace between the tokens and any whitespace around the line, resolves
the selected queue and, when that lookup returns no error, sends exactly the
body `w1 .. wk` joined by single spaces with priority `n`; when the send
returns no error the line printed holds the returned message id and `n`.
The session is unchanged and the process does not exit. -/
theorem enqueue_parsing (r : Remote) (w : World) (lead s0 sp trail : String)
    (ws : List (String × String)) (n : Nat)
    (hns : w.repl.currentNamespace ≠ "") (hq : w.repl.currentQueue ≠ "")
    (hlead : isBlank lead = true) (hs0 : isSeparator s0 = true) (hws : ws ≠ [])
    (htoks : ∀ p ∈ ws, isToken p.1 = true ∧ isSeparator p.2 = true)
    (hsp : isSeparator sp = true) (htrail : isBlank trail = true) (hn : n < 2 ^ 64)
    (hres : (r w.calls
      (Call.GetQueueClient w.repl.currentNamespace w.repl.currentQueue)).err = none) :
    (executor r w (enqueueLine lead s0 ws sp n trail)).calls = w.calls ++
      [Call.GetQueueClient w.repl.currentNamespace w.repl.currentQueue,
       Call.Send w.repl.currentNamespace w.repl.currentQueue
         (" ".intercalate (ws.map Prod.fst)) n] ∧
    (executor r w (enqueueLine lead s0 ws sp n trail)).repl = w.repl ∧
    (executor r w (enqueueLine lead s0 ws sp n trail)).exited = w.exited ∧
    (executor r w (enqueueLine lead s0 ws sp n trail)).out = w.out ++
      [match (r (w.calls ++
            [Call.GetQueueClient w.repl.currentNamespace w.repl.currentQueue])
          (Call.Send w.repl.currentNamespace w.repl.currentQueue
            (" ".intercalate (ws.map Prod.fst)) n)).err with
        | some e => "enqueue error: " ++ e
        | none => "Eequeued message: " ++
            (r (w.calls ++
              [Call.GetQueueClient w.repl.currentNamespace w.repl.currentQueue])
            (Call.Send w.repl.currentNamespace w.repl.currentQueue
              (" ".intercalate (ws.map Prod.fst)) n)).value ++ ", Priority: " ++ toString n] := by
  have hall : ∀ p ∈ ("enqueue", s0) :: ws ++ [("priority", sp)],
      isToken p.1 = true ∧ isSeparator p.2 = true := by
    intro p hp
    simp only [List.cons_append, List.mem_cons, List.mem_append, List.mem_singleton,
      List.not_mem_nil, or_false] at hp
    rcases hp with rfl | hp | rfl
    · exact ⟨(by decide : isToken "enqueue" = true), hs0⟩
    · exact htoks p hp
    · exact ⟨(by decide : isToken "priority" = true), hsp⟩
  have hf : fields (enqueueLine lead s0 ws sp n trail)
      = "enqueue" :: (ws.map Prod.fst ++ ["priority", toString n]) := by
    unfold enqueueLine
    rw [fields_spell lead _ (toString n) trail hlead hall (isToken_toString n) htrail]
    simp
  have hbody : ws.map Prod.fst ≠ [] := by simpa using hws
  rw [executor_enqueue r w _ _ hf,
    handleEnqueue_send r w _ _ n hns hq hbody (sscanfUint64_toString n hn) hres]
  exact ⟨rfl, rfl, rfl, rfl⟩

theorem enqueue_parsing_witness :
    (executor okRemote selectedWorld "enqueue hello world priority 42").calls
      = [Call.GetQueueClient "ns1" "q0", Call.Send "ns1" "q0" "hello world" 42] ∧
    (executor okRemote selectedWorld "enqueue hello world priority 42").out
      = ["Eequeued message: m-1, Priority: 42"] :=
  have h := enqueue_parsing okRemote selectedWorld "" " " " " ""
    [("hello", " "), ("world", " ")] 42 (by decide) (by decide) (by decide) (by decide)
    (by decide) (by decide) (by decide) (by decide) (by decide) rfl
  ⟨h.1, h.2.2.2⟩

/-! ## Tokens are non-empty and free of whitespace -/

theorem fieldsAux_tokens (cs : List Char) : ∀ (cur : List Char),
    (∀ c ∈ cur, isSpace c = false) → ∀ t ∈ fieldsAux cur cs, isToken t = true := by
  induction cs with
  | nil =>
    intro cur hcur t ht
    by_cases h : cur = []
    · simp [fieldsAux, h] at ht
    · simp only [fieldsAux, h, if_false, List.mem_singleton] at ht
      subst ht
      exact (isToken_iff _).2 ⟨by simpa using h, by simpa using hcur⟩
  | cons c cs ih =>
    intro cur hcur t ht
    by_cases hc : isSpace c = true
    · by_cases h : cur = []
      · simp only [fieldsAux, hc, h, if_true] at ht
        exact ih [] (by simp) t ht
      · simp only [fieldsAux, hc, h, if_true, if_false, List.mem_cons] at ht
        rcases ht with rfl | ht
        · exact (isToken_iff _).2 ⟨by simpa using h, by simpa using hcur⟩
        · exact ih [] (by simp) t ht
    · simp only [fieldsAux, hc] at ht
      refine ih (c :: cur) ?_ t ht
      intro d hd
      rcases List.mem_cons.1 hd with rfl | hd
      · simpa using hc
      · exact hcur d hd

theorem fields_tokens (line : String) : ∀ t ∈ fields line, isToken t = true :=
  fieldsAux_tokens line.data [] (by simp)

theorem isToken_ne_empty (t : String) (h : isToken t = true) : t ≠ "" := by
  intro he
  subst he
  exact absurd h (by decide)

/-! ## Effect of one command on the session and on the record of calls -/

theorem handleEnqueue_frame (r : Remote) (w : World) (args : List String) :
    (handleEnqueue r w args).repl = w.repl ∧
    ∃ ext, (handleEnqueue r w args).calls = w.calls ++ ext := by
  unfold handleEnqueue
  simp only [invoke, println, nilPointerPanic]
  split_ifs <;> (try split) <;> (try split) <;> (try split) <;> simp

theorem handleDequeue_frame (r : Remote) (w : World) :
    (handleDequeue r w).repl = w.repl ∧
    ∃ ext, (handleDequeue r w).calls = w.calls ++ ext := by
  unfold handleDequeue
  simp only [invoke, println, nilPointerPanic]
  split_ifs <;> (try split) <;> (try split) <;> simp

theorem handleAck_frame (r : Remote) (w : World) (args : List String) :
    (handleAck r w args).repl = w.repl ∧
    ∃ ext, (handleAck r w args).calls = w.calls ++ ext := by
  unfold handleAck
  simp only [invoke, println, nilPointerPanic]
  split_ifs <;> (try split) <;> (try split) <;> simp

theorem handleNack_frame (r : Remote) (w : World) (args : List String) :
    (handleNack r w args).repl = w.repl ∧
    ∃ ext, (handleNack r w args).calls = w.calls ++ ext := by
  unfold handleNack
  simp only [invoke, println, nilPointerPanic]
  split_ifs <;> (try split) <;> (try split) <;> simp

theorem handlePeek_frame (r : Remote) (w : World) :
    (handlePeek r w).repl = w.repl ∧
    ∃ ext, (handlePeek r w).calls = w.calls ++ ext := by
  unfold handlePeek
  simp only [invoke, println, nilPointerPanic]
  split_ifs <;> (try split) <;> (try split) <;> simp

theorem handleQueue_step (r : Remote) (w : World) (args : List String) :
    (handleQueue r w args).repl.currentNamespace = w.repl.currentNamespace ∧
    (handleQueue r w args).repl.address = w.repl.address ∧
    (w.repl.currentNamespace = "" → (handleQueue r w args).repl = w.repl) ∧
    ∃ ext, (handleQueue r w args).calls = w.calls ++ ext := by
  unfold handleQueue
  simp only [invoke, println, setQueue]
  split_ifs <;> (try split) <;> (try split) <;> simp_all

theorem handleNamespace_step (r : Remote) (w : World) (args : List String) :
    (handleNamespace r w args).repl.currentQueue = w.repl.currentQueue ∧
    (handleNamespace r w args).repl.address = w.repl.address ∧
    ∃ ext, (handleNamespace r w args).calls = w.calls ++ ext ∧
      ((handleNamespace r w args).repl.currentNamespace = w.repl.currentNamespace ∨
       (2 ≤ args.length ∧
         (handleNamespace r w args).repl.currentNamespace = args.getD 1 "") ∨
       namespaceDeletedAfter r w.calls ext = true) := by
  unfold handleNamespace
  simp only [invoke, println, setNamespace]
  split_ifs <;> (try split) <;> (try split) <;> simp_all
  right; right
  simp [namespaceDeletedAfter, *]

theorem executor_cases (r : Remote) (w : World) (line : String) :
    executor r w line = w ∨
    executor r w line = osExit (println w helpText) 0 ∨
    executor r w line = osExit (println w "Bye!") 0 ∨
    executor r w line = handleNamespace r w ((fields line).drop 1) ∨
    executor r w line = handleQueue r w ((fields line).drop 1) ∨
    executor r w line = handleEnqueue r w ((fields line).drop 1) ∨
    executor r w line = handleDequeue r w ∨
    executor r w line = handleAck r w ((fields line).drop 1) ∨
    executor r w line = handleNack r w ((fields line).drop 1) ∨
    executor r w line = handlePeek r w ∨
    executor r w line = println w ("Unknown command: " ++ line) := by
  unfold executor
  dsimp only
  by_cases h0 : (fields line).length = 0
  · rw [if_pos h0]; simp
  rw [if_neg h0]
  by_cases h1 : (fields line).getD 0 "" = "help"
  · rw [if_pos h1]; simp
  rw [if_neg h1]
  by_cases h2 : (fields line).getD 0 "" = "exit"
  · rw [if_pos h2]; simp
  rw [if_neg h2]
  by_cases h3 : (fields line).getD 0 "" = "namespace"
  · rw [if_pos h3]; simp
  rw [if_neg h3]
  by_cases h4 : (fields line).getD 0 "" = "queue"
  · rw [if_pos h4]; simp
  rw [if_neg h4]
  by_cases h5 : (fields line).getD 0 "" = "enqueue"
  · rw [if_pos h5]; simp
  rw [if_neg h5]
  by_cases h6 : (fields line).getD 0 "" = "dequeue"
  · rw [if_pos h6]; simp
  rw [if_neg h6]
  by_cases h7 : (fields line).getD 0 "" = "ack"
  · rw [if_pos h7]; simp
  rw [if_neg h7]
  by_cases h8 : (fields line).getD 0 "" = "nack"
  · rw [if_pos h8]; simp
  rw [if_neg h8]
  by_cases h9 : (fields line).getD 0 "" = "peek"
  · rw [if_pos h9]; simp
  rw [if_neg h9]
  simp

theorem executor_step (r : Remote) (w : World) (line : String) :
    (executor r w line).repl.address = w.repl.address ∧
    ∃ ext, (executor r w line).calls = w.calls ++ ext ∧
      (queueScoped w →
        queueScoped (executor r w line) ∨ namespaceDeletedAfter r w.calls ext = true) := by
  have htok := fields_tokens line
  rcases executor_cases r w line with h | h | h | h | h | h | h | h | h | h | h <;> rw [h]
  · exact ⟨rfl, [], by simp, fun h => Or.inl h⟩
  · exact ⟨rfl, [], by simp [osExit, println], fun h => Or.inl h⟩
  · exact ⟨rfl, [], by simp [osExit, println], fun h => Or.inl h⟩
  · obtain ⟨hq, ha, ext, hc, hn⟩ := handleNamespace_step r w ((fields line).drop 1)
    refine ⟨ha, ext, hc, fun hinv => ?_⟩
    rcases hn with hn | ⟨hlen, hn⟩ | hn
    · left
      unfold queueScoped
      rw [hq, hn]
      exact hinv
    · left
      intro _
      rw [hn]
      apply isToken_ne_empty
      apply htok
      rw [List.getD_eq_getElem?_getD, List.getElem?_eq_getElem (by omega)]
      exact List.mem_of_mem_drop (List.getElem_mem _)
    · exact Or.inr hn
  · obtain ⟨hn, ha, hsame, ext, hc⟩ := handleQueue_step r w ((fields line).drop 1)
    refine ⟨ha, ext, hc, fun hinv => Or.inl ?_⟩
    unfold queueScoped
    by_cases hns : w.repl.currentNamespace = ""
    · rw [hsame hns]
      exact hinv
    · intro _
      rw [hn]
      exact hns
  · obtain ⟨hr, ext, hc⟩ := handleEnqueue_frame r w ((fields line).drop 1)
    exact ⟨by rw [hr], ext, hc, fun hinv => Or.inl (by unfold queueScoped; rw [hr]; exact hinv)⟩
  · obtain ⟨hr, ext, hc⟩ := handleDequeue_frame r w
    exact ⟨by rw [hr], ext, hc, fun hinv => Or.inl (by unfold queueScoped; rw [hr]; exact hinv)⟩
  · obtain ⟨hr, ext, hc⟩ := handleAck_frame r w ((fields line).drop 1)
    exact ⟨by rw [hr], ext, hc, fun hinv => Or.inl (by unfold queueScoped; rw [hr]; exact hinv)⟩
  · obtain ⟨hr, ext, hc⟩ := handleNack_frame r w ((fields line).drop 1)
    exact ⟨by rw [hr], ext, hc, fun hinv => Or.inl (by unfold queueScoped; rw [hr]; exact hinv)⟩
  · obtain ⟨hr, ext, hc⟩ := handlePeek_frame r w
    exact ⟨by rw [hr], ext, hc, fun hinv => Or.inl (by unfold queueScoped; rw [hr]; exact hinv)⟩
  · exact ⟨rfl, [], by simp [println], fun h => Or.inl h⟩

/-! ## Dispatch on the first token -/

theorem executor_namespace (r : Remote) (w : World) (line : String) (args : List String)
    (hl : fields line = "namespace" :: args) : executor r w line = handleNamespace r w args := by
  simp [executor, hl]

theorem executor_queue (r : Remote) (w : World) (line : String) (args : List String)
    (hl : fields line = "queue" :: args) : executor r w line = handleQueue r w args := by
  simp [executor, hl]

theorem executor_dequeue (r : Remote) (w : World) (line : String) (args : List String)
    (hl : fields line = "dequeue" :: args) : executor r w line = handleDequeue r w := by
  simp [executor, hl]

theorem executor_ack (r : Remote) (w : World) (line : String) (args : List String)
    (hl : fields line = "ack" :: args) : executor r w line = handleAck r w args := by
  simp [executor, hl]

theorem executor_nack (r : Remote) (w : World) (line : String) (args : List String)
    (hl : fields line = "nack" :: args) : executor r w line = handleNack r w args := by
  simp [executor, hl]

theorem executor_peek (r : Remote) (w : World) (line : String) (args : List String)
    (hl : fields line = "peek" :: args) : executor r w line = handlePeek r w := by
  simp [executor, hl]

theorem executor_help (r : Remote) (w : World) (line : String) (args : List String)
    (hl : fields line = "help" :: args) :
    executor r w line = osExit (println w helpText) 0 := by
  simp [executor, hl]

theorem executor_exit (r : Remote) (w : World) (line : String) (args : List String)
    (hl : fields line = "exit" :: args) :
    executor r w line = osExit (println w "Bye!") 0 := by
  simp [executor, hl]

theorem executor_unknown (r : Remote) (w : World) (line verb : String) (args : List String)
    (hl : fields line = verb :: args)
    (hv : verb ∉ ["namespace", "queue", "enqueue", "dequeue", "ack", "nack", "peek", "help",
      "exit"]) :
    executor r w line = println w ("Unknown command: " ++ line) := by
  simp only [List.mem_cons, List.mem_singleton, List.not_mem_nil, or_false, not_or] at hv
  obtain ⟨h1, h2, h3, h4, h5, h6, h7, h8, h9⟩ := hv
  unfold executor
  simp only [hl, List.getD_cons_zero]
  rw [if_neg (by simp), if_neg h8, if_neg h9, if_neg h1, if_neg h2, if_neg h3, if_neg h4,
    if_neg h5, if_neg h6, if_neg h7]

/-! ## C11: unknown commands and subcommands -/

/-- C11: a line whose first token is none of `namespace`, `queue`, `enqueue`,
`dequeue`, `ack`, `nack`, `peek`, `help`, `exit` (compared exactly) prints
`Unknown command:` followed by the line, makes no call on the client, does not
exit and leaves the session unchanged.  A `namespace` or `queue` line whose
subcommand is none of `create`, `delete`, `use`, `list` likewise makes no
call, does not exit and leaves the session unchanged; it prints the
unknown-subcommand line (for `queue` with no namespace selected, the line
asking for a namespace). -/
theorem unknown_command (r : Remote) (w : World) (line verb sub : String)
    (args rest : List String) :
    (fields line = verb :: args →
      verb ∉ ["namespace", "queue", "enqueue", "dequeue", "ack", "nack", "peek", "help",
        "exit"] →
      (executor r w line).out = w.out ++ ["Unknown command: " ++ line] ∧
      (executor r w line).calls = w.calls ∧ (executor r w line).exited = w.exited ∧
      (executor r w line).repl = w.repl) ∧
    (fields line = "namespace" :: sub :: rest → sub ∉ ["create", "delete", "use", "list"] →
      (executor r w line).out = w.out ++ ["namespace: unknown subcommand"] ∧
      (executor r w line).calls = w.calls ∧ (executor r w line).exited = w.exited ∧
      (executor r w line).repl = w.repl) ∧
    (fields line = "queue" :: sub :: rest → sub ∉ ["create", "delete", "use", "list"] →
      (executor r w line).out = w.out ++
        [if w.repl.currentNamespace = "" then "Set namespace first using 'namespace use'"
         else "queue: unknown subcommand"] ∧
      (executor r w line).calls = w.calls ∧ (executor r w line).exited = w.exited ∧
      (executor r w line).repl = w.repl) := by
  refine ⟨?_, ?_, ?_⟩
  · intro hl hv
    rw [executor_unknown r w line verb args hl hv]
    simp [println]
  · intro hl hs
    simp only [List.mem_cons, List.mem_singleton, List.not_mem_nil, or_false, not_or] at hs
    rw [executor_namespace r w line _ hl]
    simp [handleNamespace, hs, println]
  · intro hl hs
    simp only [List.mem_cons, List.mem_singleton, List.not_mem_nil, or_false, not_or] at hs
    rw [executor_queue r w line _ hl]
    by_cases hns : w.repl.currentNamespace = "" <;>
      simp [handleQueue, hs, hns, println, namespaceFirstMsg]

theorem unknown_command_witness :
    (executor failingRemote selectedWorld "foo bar").out = [] ++ ["Unknown command: " ++ "foo bar"] ∧
    (executor failingRemote selectedWorld "foo bar").calls = [] ∧
    (executor failingRemote selectedWorld "foo bar").exited = none ∧
    (executor failingRemote selectedWorld "foo bar").repl = selectedWorld.repl :=
  (unknown_command failingRemote selectedWorld "foo bar" "foo" "" ["bar"] []).1
    (by decide) (by decide)

/-! ## C20: the prompt -/

/-- C20: `promptPrefix` shows namespace and queue when both are selected, the
namespace alone when only the namespace is selected, and the bare prompt
whenever no namespace is selected, also when a queue is. -/
theorem promptPrefix_spec (repl : ReplClient) :
    (repl.currentNamespace ≠ "" → repl.currentQueue ≠ "" →
      promptPrefix repl =
        "kokaq [ns: " ++ repl.currentNamespace ++ "] [q: " ++ repl.currentQueue ++ "] > ") ∧
    (repl.currentNamespace ≠ "" → repl.currentQueue = "" →
      promptPrefix repl = "kokaq [ns: " ++ repl.currentNamespace ++ "] > ") ∧
    (repl.currentNamespace = "" → promptPrefix repl = "kokaq > ") := by
  refine ⟨?_, ?_, ?_⟩
  · intro h1 h2
    simp [promptPrefix, h1, h2]
  · intro h1 h2
    simp [promptPrefix, h1, h2]
  · intro h1
    simp [promptPrefix, h1]

theorem promptPrefix_spec_witness :
    promptPrefix { address := ":9000", currentNamespace := "", currentQueue := "orders" }
      = "kokaq > " :=
  (promptPrefix_spec
    { address := ":9000", currentNamespace := "", currentQueue := "orders" }).2.2 rfl

/-! ## C12: selection on success -/

/-- C12: when the remote call succeeds, `namespace use n` and
`namespace create n` set `currentNamespace` to `n` and keep `currentQueue`;
with a namespace selected, `queue use n` and `queue create n` set
`currentQueue` to `n` and keep `currentNamespace`, the one call made being
made for the selected namespace. -/
theorem selection_on_success (r : Remote) (w : World) (line n : String) (rest : List String) :
    (fields line = "namespace" :: "use" :: n :: rest →
      (r w.calls (Call.GetNamespaceClient n)).err = none →
      (executor r w line).repl.currentNamespace = n ∧
      (executor r w line).repl.currentQueue = w.repl.currentQueue ∧
      (executor r w line).calls = w.calls ++ [Call.GetNamespaceClient n]) ∧
    (fields line = "namespace" :: "create" :: n :: rest →
      (r w.calls (Call.CreateNamespace n)).err = none →
      (executor r w line).repl.currentNamespace = n ∧
      (executor r w line).repl.currentQueue = w.repl.currentQueue ∧
      (executor r w line).calls = w.calls ++ [Call.CreateNamespace n]) ∧
    (w.repl.currentNamespace ≠ "" → fields line = "queue" :: "use" :: n :: rest →
      (r w.calls (Call.GetQueueClient w.repl.currentNamespace n)).err = none →
      (executor r w line).repl.currentQueue = n ∧
      (executor r w line).repl.currentNamespace = w.repl.currentNamespace ∧
      (executor r w line).calls
        = w.calls ++ [Call.GetQueueClient w.repl.currentNamespace n]) ∧
    (w.repl.currentNamespace ≠ "" → fields line = "queue" :: "create" :: n :: rest →
      (r w.calls (Call.CreateQueue w.repl.currentNamespace n)).err = none →
      (executor r w line).repl.currentQueue = n ∧
      (executor r w line).repl.currentNamespace = w.repl.currentNamespace ∧
      (executor r w line).calls
        = w.calls ++ [Call.CreateQueue w.repl.currentNamespace n]) := by
  have hlen : ¬ (rest.length + 1 + 1 < 2) := by omega
  refine ⟨?_, ?_, ?_, ?_⟩
  · intro hl hok
    rw [executor_namespace r w line _ hl]
    simp [handleNamespace, invoke, println, setNamespace, hok, hlen]
  · intro hl hok
    rw [executor_namespace r w line _ hl]
    simp [handleNamespace, invoke, println, setNamespace, hok, hlen]
  · intro hns hl hok
    rw [executor_queue r w line _ hl]
    simp [handleQueue, invoke, println, setQueue, hok, hns, hlen]
  · intro hns hl hok
    rw [executor_queue r w line _ hl]
    simp [handleQueue, invoke, println, setQueue, hok, hns, hlen]

theorem selection_on_success_witness :
    (executor okRemote selectedWorld "queue use q1").repl.currentQueue = "q1" ∧
    (executor okRemote selectedWorld "queue use q1").repl.currentNamespace = "ns1" ∧
    (executor okRemote selectedWorld "queue use q1").calls
      = [] ++ [Call.GetQueueClient "ns1" "q1"] :=
  (selection_on_success okRemote selectedWorld "queue use q1" "q1" []).2.2.1
    (by decide) (by decide) rfl

/-! ## C13: `namespace delete` -/

/-- C13: when the lookup of the namespace and its deletion both succeed,
`namespace delete n` leaves `currentNamespace` empty, whatever namespace was
selected, and keeps `currentQueue`. -/
theorem namespace_delete (r : Remote) (w : World) (line n : String) (rest : List String)
    (hl : fields line = "namespace" :: "delete" :: n :: rest)
    (hget : (r w.calls (Call.GetNamespaceClient n)).err = none)
    (hdel : (r (w.calls ++ [Call.GetNamespaceClient n]) (Call.NamespaceDelete n)).err = none) :
    (executor r w line).repl.currentNamespace = "" ∧
    (executor r w line).repl.currentQueue = w.repl.currentQueue ∧
    (executor r w line).calls
      = w.calls ++ [Call.GetNamespaceClient n, Call.NamespaceDelete n] ∧
    (executor r w line).out = w.out ++ ["Deleted namespace: " ++ n] := by
  have hlen : ¬ (rest.length + 1 + 1 < 2) := by omega
  rw [executor_namespace r w line _ hl]
  simp [handleNamespace, invoke, println, setNamespace, hget, hdel, hlen]

theorem namespace_delete_witness :
    (executor okRemote selectedWorld "namespace delete other").repl.currentNamespace = "" ∧
    (executor okRemote selectedWorld "namespace delete other").repl.currentQueue = "q0" ∧
    (executor okRemote selectedWorld "namespace delete other").calls
      = [] ++ [Call.GetNamespaceClient "other", Call.NamespaceDelete "other"] ∧
    (executor okRemote selectedWorld "namespace delete other").out
      = [] ++ ["Deleted namespace: " ++ "other"] :=
  namespace_delete okRemote selectedWorld "namespace delete other" "other" []
    (by decide) rfl rfl

/-! ## C14: a failed lookup of the queue -/

/-- C14: evaluation at the failing input.  With namespace `ns1` and queue `q0`
selected and a client whose calls all return an error, each of `enqueue`,
`dequeue`, `ack`, `nack` and `peek` prints its line about the failed lookup and
does not return.  When the lookup handed back a handle that is not nil, the
handler still makes its call on the queue and prints a second error line; when
it handed back a nil handle, the handler uses it all the same and the process
ends with status 2. -/
theorem failed_lookup_does_not_stop_the_handler :
    (executor failingRemote selectedWorld "enqueue hello priority 7").calls
      = [Call.GetQueueClient "ns1" "q0", Call.Send "ns1" "q0" "hello" 7] ∧
    (executor failingRemote selectedWorld "enqueue hello priority 7").out
      = ["Error: cannot enqueue message", "enqueue error: boom"] ∧
    (executor failingRemote selectedWorld "dequeue").calls
      = [Call.GetQueueClient "ns1" "q0", Call.PollAndProcess "ns1" "q0" 1] ∧
    (executor failingRemote selectedWorld "dequeue").out
      = ["Error: cannot enqueue message", "dequeue error: boom"] ∧
    (executor failingRemote selectedWorld "ack a1 l1").calls
      = [Call.GetQueueClient "ns1" "q0", Call.Ack "ns1" "q0" "a1" "l1"] ∧
    (executor failingRemote selectedWorld "ack a1 l1").out
      = ["Error: cannot ack message", "ack error: boom"] ∧
    (executor failingRemote selectedWorld "nack a1 l1").calls
      = [Call.GetQueueClient "ns1" "q0",
         Call.Nack "ns1" "q0" "a1" "l1" FailureReason.PROCESSING_ERROR true] ∧
    (executor failingRemote selectedWorld "nack a1 l1").out
      = ["Error: cannot ack message", "nack error: boom"] ∧
    (executor failingRemote selectedWorld "peek").calls
      = [Call.GetQueueClient "ns1" "q0", Call.PeekAndProcess "ns1" "q0" 1 0] ∧
    (executor failingRemote selectedWorld "peek").out
      = ["Error: cannot peek message", "peek error: boom"] ∧
    (executor nilHandleRemote selectedWorld "ack a1 l1").calls
      = [Call.GetQueueClient "ns1" "q0"] ∧
    (executor nilHandleRemote selectedWorld "ack a1 l1").out
      = ["Error: cannot ack message"] ∧
    (executor nilHandleRemote selectedWorld "ack a1 l1").exited = some 2 := by
  decide

/-! ## What the handlers leave alone -/

theorem handleNamespace_exited (r : Remote) (w : World) (args : List String) :
    (handleNamespace r w args).exited = w.exited := by
  unfold handleNamespace
  simp only [invoke, println, setNamespace]
  split_ifs <;> (try split) <;> (try split) <;> simp

theorem handleQueue_exited (r : Remote) (w : World) (args : List String) :
    (handleQueue r w args).exited = w.exited := by
  unfold handleQueue
  simp only [invoke, println, setQueue]
  split_ifs <;> (try split) <;> (try split) <;> simp

theorem handleEnqueue_exited (r : Remote) (w : World) (args : List String) :
    (handleEnqueue r w args).exited = w.exited ∨
    (handleIsNil (r w.calls
        (Call.GetQueueClient w.repl.currentNamespace w.repl.currentQueue)) = true ∧
      (handleEnqueue r w args).exited = some 2) := by
  unfold handleEnqueue
  simp only [invoke, println, nilPointerPanic]
  split_ifs <;> (try split) <;> (try split) <;> (try split) <;> simp_all

theorem handleDequeue_exited (r : Remote) (w : World) :
    (handleDequeue r w).exited = w.exited ∨
    (handleIsNil (r w.calls
        (Call.GetQueueClient w.repl.currentNamespace w.repl.currentQueue)) = true ∧
      (handleDequeue r w).exited = some 2) := by
  unfold handleDequeue
  simp only [invoke, println, nilPointerPanic]
  split_ifs <;> (try split) <;> (try split) <;> simp_all

theorem handleAck_exited (r : Remote) (w : World) (args : List String) :
    (handleAck r w args).exited = w.exited ∨
    (handleIsNil (r w.calls
        (Call.GetQueueClient w.repl.currentNamespace w.repl.currentQueue)) = true ∧
      (handleAck r w args).exited = some 2) := by
  unfold handleAck
  simp only [invoke, println, nilPointerPanic]
  split_ifs <;> (try split) <;> (try split) <;> simp_all

theorem handleNack_exited (r : Remote) (w : World) (args : List String) :
    (handleNack r w args).exited = w.exited ∨
    (handleIsNil (r w.calls
        (Call.GetQueueClient w.repl.currentNamespace w.repl.currentQueue)) = true ∧
      (handleNack r w args).exited = some 2) := by
  unfold handleNack
  simp only [invoke, println, nilPointerPanic]
  split_ifs <;> (try split) <;> (try split) <;> simp_all

theorem handlePeek_exited (r : Remote) (w : World) :
    (handlePeek r w).exited = w.exited ∨
    (handleIsNil (r w.calls
        (Call.GetQueueClient w.repl.currentNamespace w.repl.currentQueue)) = true ∧
      (handlePeek r w).exited = some 2) := by
  unfold handlePeek
  simp only [invoke, println, nilPointerPanic]
  split_ifs <;> (try split) <;> (try split) <;> simp_all

theorem handleNamespace_changes (r : Remote) (w : World) (args : List String)
    (h : (handleNamespace r w args).repl ≠ w.repl) :
    ∃ sub n rest, args = sub :: n :: rest ∧ (sub = "use" ∨ sub = "create" ∨ sub = "delete") := by
  match args with
  | [] => exact absurd (by simp [handleNamespace, println]) h
  | [sub] =>
    refine absurd ?_ h
    unfold handleNamespace
    simp only [println, List.length_singleton]
    split_ifs <;> first | rfl | omega
  | sub :: n :: rest =>
    refine ⟨sub, n, rest, rfl, ?_⟩
    by_contra hs
    simp only [not_or] at hs
    refine h ?_
    unfold handleNamespace
    simp only [println, List.getD_cons_zero]
    rw [if_neg (by simp), if_neg hs.2.1, if_neg hs.2.2, if_neg hs.1]
    split_ifs <;> rfl

theorem handleQueue_changes (r : Remote) (w : World) (args : List String)
    (h : (handleQueue r w args).repl ≠ w.repl) :
    ∃ sub n rest, args = sub :: n :: rest ∧ (sub = "use" ∨ sub = "create" ∨ sub = "delete") := by
  match args with
  | [] => exact absurd (by simp [handleQueue, println]) h
  | [sub] =>
    refine absurd ?_ h
    unfold handleQueue
    simp only [println, List.length_singleton]
    split_ifs <;> first | rfl | omega
  | sub :: n :: rest =>
    refine ⟨sub, n, rest, rfl, ?_⟩
    by_contra hs
    simp only [not_or] at hs
    refine h ?_
    unfold handleQueue
    simp only [println, List.getD_cons_zero]
    rw [if_neg (by simp)]
    by_cases h1 : w.repl.currentNamespace = ""
    · rw [if_pos h1]
    · rw [if_neg h1, if_neg hs.2.1, if_neg hs.2.2, if_neg hs.1]
      split_ifs <;> rfl

/-! ## C15: `help` and `exit` -/

/-- A line whose first token is `help` or `exit`, whatever follows it, prints
the help guide or the farewell, makes no call on the client and exits with
status 0; every other line leaves the exit status as it was, unless it is a
message command whose lookup of the queue handed back a nil handle with its
error: the handler goes on to use the handle and the process ends with
status 2. -/
theorem exit_status (r : Remote) (w : World) (line : String) :
    ((fields line).head? = some "help" →
      (executor r w line).out = w.out ++ [helpText] ∧
      (executor r w line).exited = some 0 ∧ (executor r w line).calls = w.calls ∧
      (executor r w line).repl = w.repl) ∧
    ((fields line).head? = some "exit" →
      (executor r w line).out = w.out ++ ["Bye!"] ∧
      (executor r w line).exited = some 0 ∧ (executor r w line).calls = w.calls ∧
      (executor r w line).repl = w.repl) ∧
    ((fields line).head? ≠ some "help" → (fields line).head? ≠ some "exit" →
      (executor r w line).exited = w.exited ∨
      (handleIsNil (r w.calls
          (Call.GetQueueClient w.repl.currentNamespace w.repl.currentQueue)) = true ∧
        (executor r w line).exited = some 2)) := by
  cases hf : fields line with
  | nil =>
    refine ⟨by simp, by simp, fun _ _ => Or.inl ?_⟩
    simp [executor, hf]
  | cons verb args =>
    simp only [List.head?_cons, Option.some.injEq]
    refine ⟨?_, ?_, ?_⟩
    · intro hv
      subst hv
      rw [executor_help r w line args hf]
      simp [osExit, println]
    · intro hv
      subst hv
      rw [executor_exit r w line args hf]
      simp [osExit, println]
    · intro h1 h2
      have h1b : verb ≠ "help" := fun he => h1 (by rw [he])
      have h2b : verb ≠ "exit" := fun he => h2 (by rw [he])
      by_cases h3 : verb = "namespace"
      · subst h3
        rw [executor_namespace r w line args hf, handleNamespace_exited]
        exact Or.inl rfl
      by_cases h4 : verb = "queue"
      · subst h4
        rw [executor_queue r w line args hf, handleQueue_exited]
        exact Or.inl rfl
      by_cases h5 : verb = "enqueue"
      · subst h5
        rw [executor_enqueue r w line args hf]
        exact handleEnqueue_exited r w args
      by_cases h6 : verb = "dequeue"
      · subst h6
        rw [executor_dequeue r w line args hf]
        exact handleDequeue_exited r w
      by_cases h7 : verb = "ack"
      · subst h7
        rw [executor_ack r w line args hf]
        exact handleAck_exited r w args
      by_cases h8 : verb = "nack"
      · subst h8
        rw [executor_nack r w line args hf]
        exact handleNack_exited r w args
      by_cases h9 : verb = "peek"
      · subst h9
        rw [executor_peek r w line args hf]
        exact handlePeek_exited r w
      rw [executor_unknown r w line verb args hf (by simp [h1b, h2b, h3, h4, h5, h6, h7, h8, h9])]
      exact Or.inl rfl

/-- C15: evaluation at the failing input.  With namespace `ns1` and queue `q0`
selected and a client whose lookup of the queue returns an error and a nil
handle, `ack a1 l1` prints the line about the failed lookup, goes on to use
the handle and ends the process with status 2; so do `enqueue`, `dequeue`,
`nack` and `peek`.  None of these lines is `help` or `exit`. -/
theorem failed_lookup_ends_the_process :
    (executor nilHandleRemote selectedWorld "ack a1 l1").out
      = ["Error: cannot ack message"] ∧
    (executor nilHandleRemote selectedWorld "ack a1 l1").calls
      = [Call.GetQueueClient "ns1" "q0"] ∧
    selectedWorld.exited = none ∧
    (executor nilHandleRemote selectedWorld "ack a1 l1").exited = some 2 ∧
    (executor nilHandleRemote selectedWorld "enqueue hello priority 7").exited = some 2 ∧
    (executor nilHandleRemote selectedWorld "dequeue").exited = some 2 ∧
    (executor nilHandleRemote selectedWorld "nack a1 l1").exited = some 2 ∧
    (executor nilHandleRemote selectedWorld "peek").exited = some 2 := by
  decide

theorem frame_changes (r : Remote) (w : World) (line : String)
    (hch : (executor r w line).repl ≠ w.repl) :
    ∃ verb sub n rest, fields line = verb :: sub :: n :: rest ∧
      (verb = "namespace" ∨ verb = "queue") ∧
      (sub = "use" ∨ sub = "create" ∨ sub = "delete") := by
  cases hf : fields line with
  | nil => exact absurd (by simp [executor, hf]) hch
  | cons verb args =>
    by_cases h3 : verb = "namespace"
    · subst h3
      rw [executor_namespace r w line args hf] at hch
      obtain ⟨sub, n, rest, ha, hs⟩ := handleNamespace_changes r w args hch
      exact ⟨"namespace", sub, n, rest, by rw [ha], Or.inl rfl, hs⟩
    by_cases h4 : verb = "queue"
    · subst h4
      rw [executor_queue r w line args hf] at hch
      obtain ⟨sub, n, rest, ha, hs⟩ := handleQueue_changes r w args hch
      exact ⟨"queue", sub, n, rest, by rw [ha], Or.inr rfl, hs⟩
    refine absurd ?_ hch
    by_cases h1 : verb = "help"
    · subst h1
      rw [executor_help r w line args hf]
      rfl
    by_cases h2 : verb = "exit"
    · subst h2
      rw [executor_exit r w line args hf]
      rfl
    by_cases h5 : verb = "enqueue"
    · subst h5
      rw [executor_enqueue r w line args hf]; exact (handleEnqueue_frame r w args).1
    by_cases h6 : verb = "dequeue"
    · subst h6
      rw [executor_dequeue r w line args hf]; exact (handleDequeue_frame r w).1
    by_cases h7 : verb = "ack"
    · subst h7
      rw [executor_ack r w line args hf]; exact (handleAck_frame r w args).1
    by_cases h8 : verb = "nack"
    · subst h8
      rw [executor_nack r w line args hf]; exact (handleNack_frame r w args).1
    by_cases h9 : verb = "peek"
    · subst h9
      rw [executor_peek r w line args hf]; exact (handlePeek_frame r w).1
    rw [executor_unknown r w line verb args hf (by simp [h1, h2, h3, h4, h5, h6, h7, h8, h9])]
    rfl

/-- C16: no line changes `address`; a line whose verb is `enqueue`, `dequeue`,
`ack`, `nack` or `peek`, and the lines `namespace list` and `queue list`,
leave the whole session unchanged, whatever the remote client answers; a line
that changes the session is a `namespace` or `queue` line with subcommand
`use`, `create` or `delete` and a name. -/
theorem session_frame (r : Remote) (w : World) (line : String) :
    (executor r w line).repl.address = w.repl.address ∧
    (∀ verb args, fields line = verb :: args →
      verb ∈ ["enqueue", "dequeue", "ack", "nack", "peek"] →
      (executor r w line).repl = w.repl) ∧
    (∀ rest, fields line = "namespace" :: "list" :: rest →
      (executor r w line).repl = w.repl) ∧
    (∀ rest, fields line = "queue" :: "list" :: rest → (executor r w line).repl = w.repl) ∧
    ((executor r w line).repl ≠ w.repl →
      ∃ verb sub n rest, fields line = verb :: sub :: n :: rest ∧
        (verb = "namespace" ∨ verb = "queue") ∧
        (sub = "use" ∨ sub = "create" ∨ sub = "delete")) := by
  refine ⟨(executor_step r w line).1, ?_, ?_, ?_, ?_⟩
  · intro verb args hl hv
    simp only [List.mem_cons, List.mem_singleton, List.not_mem_nil, or_false] at hv
    rcases hv with rfl | rfl | rfl | rfl | rfl
    · rw [executor_enqueue r w line args hl]; exact (handleEnqueue_frame r w args).1
    · rw [executor_dequeue r w line args hl]; exact (handleDequeue_frame r w).1
    · rw [executor_ack r w line args hl]; exact (handleAck_frame r w args).1
    · rw [executor_nack r w line args hl]; exact (handleNack_frame r w args).1
    · rw [executor_peek r w line args hl]; exact (handlePeek_frame r w).1
  · intro rest hl
    rw [executor_namespace r w line _ hl]
    simp [handleNamespace, println]
  · intro rest hl
    rw [executor_queue r w line _ hl]
    by_cases hns : w.repl.currentNamespace = "" <;> simp [handleQueue, println, hns]
  · exact frame_changes r w line

/-! ## C17: `dequeue` -/

theorem handleDequeue_calls (r : Remote) (w : World) :
    (handleDequeue r w).calls = w.calls ∨
    (handleDequeue r w).calls = w.calls ++
      [Call.GetQueueClient w.repl.currentNamespace w.repl.currentQueue] ∨
    (handleDequeue r w).calls = w.calls ++
      [Call.GetQueueClient w.repl.currentNamespace w.repl.currentQueue,
       Call.PollAndProcess w.repl.currentNamespace w.repl.currentQueue 1] := by
  unfold handleDequeue
  simp only [invoke, println, nilPointerPanic]
  split_ifs <;> (try split) <;> (try split) <;> simp

/-- C17: with namespace and queue selected, whatever the remote client
answers, no call made by `dequeue` is an `Ack` or a `Nack`, and the session is
unchanged.  When the lookup of the selected queue returns no error, `dequeue`
makes, after the lookup, exactly one `PollAndProcess` call with batch size 1
on the selected queue; it prints, in the order of delivery, one line with the
id and the priority of every message handed to the callback, followed by the
error line when the call returns an error; the process does not exit. -/
theorem dequeue_never_acknowledges (r : Remote) (w : World) (line : String)
    (args : List String)
    (hns : w.repl.currentNamespace ≠ "") (hq : w.repl.currentQueue ≠ "")
    (hl : fields line = "dequeue" :: args) :
    (∀ c ∈ (executor r w line).calls.drop w.calls.length,
      (∀ ns q a b, c ≠ Call.Ack ns q a b) ∧ (∀ ns q a b f g, c ≠ Call.Nack ns q a b f g)) ∧
    (executor r w line).repl = w.repl ∧
    ((r w.calls
        (Call.GetQueueClient w.repl.currentNamespace w.repl.currentQueue)).err = none →
      (executor r w line).calls = w.calls ++
        [Call.GetQueueClient w.repl.currentNamespace w.repl.currentQueue,
         Call.PollAndProcess w.repl.currentNamespace w.repl.currentQueue 1] ∧
      (executor r w line).exited = w.exited ∧
      (executor r w line).out = w.out ++
        (r (w.calls ++ [Call.GetQueueClient w.repl.currentNamespace w.repl.currentQueue])
          (Call.PollAndProcess w.repl.currentNamespace
            w.repl.currentQueue 1)).batches.flatten.map
          (fun m =>
            "Dequeued message: " ++ m.MessageId ++ ", Priority: " ++ toString m.Priority) ++
        (match (r (w.calls ++
              [Call.GetQueueClient w.repl.currentNamespace w.repl.currentQueue])
            (Call.PollAndProcess w.repl.currentNamespace w.repl.currentQueue 1)).err with
          | some e => ["dequeue error: " ++ e]
          | none => [])) := by
  rw [executor_dequeue r w line args hl]
  refine ⟨?_, (handleDequeue_frame r w).1, ?_⟩
  · intro c hc
    rcases handleDequeue_calls r w with h | h | h <;> rw [h] at hc
    · simp at hc
    · rw [List.drop_left] at hc
      simp only [List.mem_singleton] at hc
      subst hc
      simp
    · rw [List.drop_left] at hc
      simp only [List.mem_cons, List.mem_singleton, List.not_mem_nil, or_false] at hc
      rcases hc with rfl | rfl <;> simp
  · intro hres
    have hfun : (fun m : Message =>
        "Dequeued message: " ++ m.MessageId ++ ", Priority: " ++ toString m.Priority)
        = dequeuedLine := rfl
    rw [hfun]
    simp only [handleDequeue, invoke, println]
    simp [hns, hq, hres, handleIsNil]
    split <;> simp_all

theorem dequeue_never_acknowledges_witness :
    (executor deliveringRemote selectedWorld "dequeue").calls
      = [Call.GetQueueClient "ns1" "q0", Call.PollAndProcess "ns1" "q0" 1] ∧
    (executor deliveringRemote selectedWorld "dequeue").out
      = ["Dequeued message: m-1, Priority: 5", "Dequeued message: m-2, Priority: 3",
         "Dequeued message: m-3, Priority: 9", "dequeue error: timeout"] :=
  have h := (dequeue_never_acknowledges deliveringRemote selectedWorld "dequeue" []
    (by decide) (by decide) (by decide)).2.2 rfl
  ⟨h.1, h.2.2⟩

/-! ## The values a command stores -/

theorem handleNamespace_value (r : Remote) (w : World) (args : List String) :
    (handleNamespace r w args).repl.currentNamespace = w.repl.currentNamespace ∨
    (2 ≤ args.length ∧ (handleNamespace r w args).repl.currentNamespace = args.getD 1 "") ∨
    ((handleNamespace r w args).repl.currentNamespace = "" ∧ args.getD 0 "" = "delete") := by
  unfold handleNamespace
  simp only [invoke, println, setNamespace]
  split_ifs <;> (try split) <;> (try split) <;> simp_all

theorem handleQueue_value (r : Remote) (w : World) (args : List String) :
    (handleQueue r w args).repl.currentQueue = w.repl.currentQueue ∨
    (2 ≤ args.length ∧ (handleQueue r w args).repl.currentQueue = args.getD 1 "") ∨
    ((handleQueue r w args).repl.currentQueue = "" ∧ args.getD 0 "" = "delete") := by
  unfold handleQueue
  simp only [invoke, println, setQueue]
  split_ifs <;> (try split) <;> (try split) <;> simp_all

theorem getD_one_token (line verb : String) (args : List String)
    (hf : fields line = verb :: args) (hlen : 2 ≤ args.length) :
    isToken (args.getD 1 "") = true := by
  apply fields_tokens line
  rw [hf, List.getD_eq_getElem?_getD, List.getElem?_eq_getElem (by omega)]
  exact List.mem_cons_of_mem _ (List.getElem_mem _)

theorem take_two_delete (verb : String) (args : List String)
    (h : args.getD 0 "" = "delete") : (verb :: args).take 2 = [verb, "delete"] := by
  cases args with
  | nil => exact absurd h (by decide)
  | cons a rest =>
    simp only [List.getD_cons_zero] at h
    simp [h]

theorem executor_values (r : Remote) (w : World) (line : String) :
    ((executor r w line).repl.currentNamespace = w.repl.currentNamespace ∨
      isToken (executor r w line).repl.currentNamespace = true ∨
      ((executor r w line).repl.currentNamespace = "" ∧
        (fields line).take 2 = ["namespace", "delete"])) ∧
    ((executor r w line).repl.currentQueue = w.repl.currentQueue ∨
      isToken (executor r w line).repl.currentQueue = true ∨
      ((executor r w line).repl.currentQueue = "" ∧
        (fields line).take 2 = ["queue", "delete"])) := by
  by_cases hch : (executor r w line).repl = w.repl
  · rw [hch]
    exact ⟨Or.inl rfl, Or.inl rfl⟩
  · cases hf : fields line with
    | nil => exact absurd (by simp [executor, hf]) hch
    | cons verb args =>
      obtain ⟨verb2, sub, n, rest, hshape, hv, _⟩ := (frame_changes r w line) hch
      rw [hf] at hshape
      obtain ⟨rfl, rfl⟩ := List.cons.inj hshape
      rcases hv with rfl | rfl
      · rw [executor_namespace r w line _ hf]
        refine ⟨?_, Or.inl (handleNamespace_step r w _).1⟩
        rcases handleNamespace_value r w (sub :: n :: rest) with h | ⟨hlen, h⟩ | ⟨h, hd⟩
        · exact Or.inl h
        · exact Or.inr (Or.inl (by rw [h]; exact getD_one_token line _ _ hf hlen))
        · exact Or.inr (Or.inr ⟨h, take_two_delete _ _ hd⟩)
      · rw [executor_queue r w line _ hf]
        refine ⟨Or.inl (handleQueue_step r w _).1, ?_⟩
        rcases handleQueue_value r w (sub :: n :: rest) with h | ⟨hlen, h⟩ | ⟨h, hd⟩
        · exact Or.inl h
        · exact Or.inr (Or.inl (by rw [h]; exact getD_one_token line _ _ hf hlen))
        · exact Or.inr (Or.inr ⟨h, take_two_delete _ _ hd⟩)

/-! ## C19: the queue is selected under a namespace -/

/-- C19: if a line changes `currentQueue`, a namespace was selected when the
line was executed; and whatever a line stores into `currentNamespace` or
`currentQueue` is a token of the line, non-empty and free of whitespace, the
one exception being the empty string stored by `namespace delete` and
`queue delete`. -/
theorem queue_scoping (r : Remote) (w : World) (line : String) :
    ((executor r w line).repl.currentQueue ≠ w.repl.currentQueue →
      w.repl.currentNamespace ≠ "") ∧
    ((executor r w line).repl.currentNamespace = w.repl.currentNamespace ∨
      isToken (executor r w line).repl.currentNamespace = true ∨
      ((executor r w line).repl.currentNamespace = "" ∧
        (fields line).take 2 = ["namespace", "delete"])) ∧
    ((executor r w line).repl.currentQueue = w.repl.currentQueue ∨
      isToken (executor r w line).repl.currentQueue = true ∨
      ((executor r w line).repl.currentQueue = "" ∧
        (fields line).take 2 = ["queue", "delete"])) := by
  refine ⟨?_, (executor_values r w line).1, (executor_values r w line).2⟩
  intro hq hns
  have hch : (executor r w line).repl ≠ w.repl := fun h => hq (by rw [h])
  obtain ⟨verb, sub, n, rest, hf, hv, _⟩ := frame_changes r w line hch
  rcases hv with rfl | rfl
  · rw [executor_namespace r w line _ hf] at hq
    exact hq (handleNamespace_step r w _).1
  · rw [executor_queue r w line _ hf] at hq
    exact hq (by rw [(handleQueue_step r w _).2.2.1 hns])

theorem queue_scoping_witness : selectedWorld.repl.currentNamespace ≠ "" :=
  (queue_scoping failingRemote selectedWorld "queue use q1").1 (by decide)

/-! ## C18: the scenario of the specification -/

theorem run_cons_running (r : Remote) (w : World) (l : String) (ls : List String)
    (h : w.exited = none) : run r w (l :: ls) = run r (executor r w l) ls := by
  simp [run, h]

/-- C18: from the empty session, with a client that confirms the namespace
`acct` and the queue `orders` and whose `Send` returns the id `m-1`, the lines
`namespace use acct`, `queue use orders`, `enqueue "pay invoice" priority 5`
select `acct`, then `orders`, and then make exactly one `Send` call, with
priority 5 and the body made of the tokens `"pay` and `invoice"` joined by one
space, the double quotes kept; the last line printed holds `m-1` and `5`. -/
theorem end_to_end_scenario (r : Remote) (address : String)
    (hns : ∀ hist, (r hist (Call.GetNamespaceClient "acct")).err = none)
    (hq : ∀ hist, (r hist (Call.GetQueueClient "acct" "orders")).err = none)
    (hsend : ∀ hist body prio, (r hist (Call.Send "acct" "orders" body prio)).err = none ∧
      (r hist (Call.Send "acct" "orders" body prio)).value = "m-1") :
    (run r (World.init address) ["namespace use acct"]).repl
      = { address := address, currentNamespace := "acct", currentQueue := "" } ∧
    (run r (World.init address) ["namespace use acct", "queue use orders"]).repl
      = { address := address, currentNamespace := "acct", currentQueue := "orders" } ∧
    fields "enqueue \"pay invoice\" priority 5"
      = ["enqueue", "\"pay", "invoice\"", "priority", "5"] ∧
    run r (World.init address)
        ["namespace use acct", "queue use orders", "enqueue \"pay invoice\" priority 5"]
      = { repl := { address := address, currentNamespace := "acct", currentQueue := "orders" }
          out := ["Selected namespace: acct", "Selected queue: orders",
            "Eequeued message: m-1, Priority: 5"]
          calls := [Call.GetNamespaceClient "acct", Call.GetQueueClient "acct" "orders",
            Call.GetQueueClient "acct" "orders",
            Call.Send "acct" "orders" "\"pay invoice\"" 5]
          exited := none } := by
  have e1 : executor r (World.init address) "namespace use acct"
      = { repl := { address := address, currentNamespace := "acct", currentQueue := "" }
          out := ["Selected namespace: acct"]
          calls := [Call.GetNamespaceClient "acct"]
          exited := none } := by
    rw [executor_namespace r _ "namespace use acct" ["use", "acct"] (by decide)]
    simp [handleNamespace, invoke, println, setNamespace, hns, World.init, NewReplClient]
  have e2 : executor r
      { repl := { address := address, currentNamespace := "acct", currentQueue := "" }
        out := ["Selected namespace: acct"]
        calls := [Call.GetNamespaceClient "acct"]
        exited := none } "queue use orders"
      = { repl := { address := address, currentNamespace := "acct", currentQueue := "orders" }
          out := ["Selected namespace: acct", "Selected queue: orders"]
          calls := [Call.GetNamespaceClient "acct", Call.GetQueueClient "acct" "orders"]
          exited := none } := by
    rw [executor_queue r _ "queue use orders" ["use", "orders"] (by decide)]
    simp [handleQueue, invoke, println, setQueue, hq]
  have e3 : executor r
      { repl := { address := address, currentNamespace := "acct", currentQueue := "orders" }
        out := ["Selected namespace: acct", "Selected queue: orders"]
        calls := [Call.GetNamespaceClient "acct", Call.GetQueueClient "acct" "orders"]
        exited := none } "enqueue \"pay invoice\" priority 5"
      = { repl := { address := address, currentNamespace := "acct", currentQueue := "orders" }
          out := ["Selected namespace: acct", "Selected queue: orders",
            "Eequeued message: m-1, Priority: 5"]
          calls := [Call.GetNamespaceClient "acct", Call.GetQueueClient "acct" "orders",
            Call.GetQueueClient "acct" "orders",
            Call.Send "acct" "orders" "\"pay invoice\"" 5]
          exited := none } := by
    rw [executor_enqueue r _ "enqueue \"pay invoice\" priority 5"
      (["\"pay", "invoice\""] ++ ["priority", "5"]) (by decide)]
    rw [handleEnqueue_send r _ ["\"pay", "invoice\""] "5" 5
      (show ("acct" : String) ≠ "" by decide) (show ("orders" : String) ≠ "" by decide)
      (by decide) (by decide) (hq _)]
    have hbody : " ".intercalate ["\"pay", "invoice\""] = "\"pay invoice\"" := by decide
    have h5 : toString 5 = "5" := by decide
    simp [hbody, hsend, h5]
  refine ⟨?_, ?_, by decide, ?_⟩
  · rw [run_cons_running r _ _ _ rfl, e1]
    rfl
  · rw [run_cons_running r _ _ _ rfl, e1, run_cons_running r _ _ _ rfl, e2]
    rfl
  · rw [run_cons_running r _ _ _ rfl, e1, run_cons_running r _ _ _ rfl, e2,
      run_cons_running r _ _ _ rfl, e3]
    rfl

theorem end_to_end_scenario_witness :
    run okRemote (World.init ":9000")
        ["namespace use acct", "queue use orders", "enqueue \"pay invoice\" priority 5"]
      = { repl := { address := ":9000", currentNamespace := "acct", currentQueue := "orders" }
          out := ["Selected namespace: acct", "Selected queue: orders",
            "Eequeued message: m-1, Priority: 5"]
          calls := [Call.GetNamespaceClient "acct", Call.GetQueueClient "acct" "orders",
            Call.GetQueueClient "acct" "orders",
            Call.Send "acct" "orders" "\"pay invoice\"" 5]
          exited := none } :=
  (end_to_end_scenario okRemote ":9000" (fun _ => rfl) (fun _ => rfl) (fun _ _ _ => ⟨rfl, rfl⟩)).2.2.2

/-! ## C2: the session invariant -/

theorem executor_queue_change (r : Remote) (w : World) (line : String)
    (hq : (executor r w line).repl.currentQueue ≠ w.repl.currentQueue) :
    w.repl.currentNamespace ≠ "" ∧
    (executor r w line).repl.currentNamespace = w.repl.currentNamespace := by
  have hch : (executor r w line).repl ≠ w.repl := fun h => hq (by rw [h])
  obtain ⟨verb, sub, n, rest, hf, hv, _⟩ := frame_changes r w line hch
  rcases hv with rfl | rfl
  · rw [executor_namespace r w line _ hf] at hq
    exact absurd (handleNamespace_step r w _).1 hq
  · rw [executor_queue r w line _ hf] at hq ⊢
    refine ⟨fun hns => hq (by rw [(handleQueue_step r w _).2.2.1 hns]), ?_⟩
    exact (handleQueue_step r w _).1

theorem run_keeps_scoped (r : Remote) (lines : List String) : ∀ w : World,
    queueScoped w → deletedUnderQueue r w lines = false → queueScoped (run r w lines) := by
  induction lines with
  | nil => intro w h _; exact h
  | cons l ls ih =>
    intro w hinv hdel
    by_cases hex : w.exited.isSome = true
    · simpa [run, hex] using hinv
    · simp only [deletedUnderQueue, hex, Bool.false_eq_true, if_false, Bool.or_eq_false_iff,
        Bool.and_eq_false_iff] at hdel
      obtain ⟨hstep, hrest⟩ := hdel
      have h1 : queueScoped (executor r w l) := by
        obtain ⟨_, ext, hc, hs⟩ := executor_step r w l
        by_cases hq : w.repl.currentQueue = ""
        · intro hq1
          have hne : (executor r w l).repl.currentQueue ≠ w.repl.currentQueue := by
            rw [hq]; exact hq1
          obtain ⟨hns, hsame⟩ := executor_queue_change r w l hne
          rw [hsame]
          exact hns
        · rcases hstep with hstep | hstep
          · exact absurd hstep (by simp [hq])
          · rw [hc, List.drop_left] at hstep
            rcases hs hinv with h | h
            · exact h
            · rw [hstep] at h
              exact absurd h (by decide)
      have h2 := ih (executor r w l) h1 hrest
      simpa [run, hex] using h2

/-- C2, as stated, fails: after `namespace use acct`, `queue use orders` and a
successful `namespace delete acct`, the queue `orders` is still selected and no
namespace is. -/
theorem session_invariant_counterexample :
    (run okRemote (World.init ":9000")
      ["namespace use acct", "queue use orders", "namespace delete acct"]).repl.currentQueue
      = "orders" ∧
    (run okRemote (World.init ":9000")
      ["namespace use acct", "queue use orders", "namespace delete acct"]).repl.currentNamespace
      = "" := by
  decide

/-- C2, amended: in every state reached from the initial session by any finite
sequence of input lines, under any behaviour of the remote client, if no
deletion of a namespace has succeeded while a queue was selected then a
non-empty `currentQueue` comes with a non-empty `currentNamespace`. -/
theorem session_invariant (r : Remote) (address : String) (lines : List String)
    (hdel : deletedUnderQueue r (World.init address) lines = false) :
    (run r (World.init address) lines).repl.currentQueue ≠ "" →
    (run r (World.init address) lines).repl.currentNamespace ≠ "" :=
  run_keeps_scoped r lines (World.init address) (fun h => absurd rfl h) hdel

theorem session_invariant_witness :
    (run okRemote (World.init ":9000")
      ["namespace create tmp", "namespace delete tmp", "namespace use acct",
        "queue use orders"]).repl.currentNamespace ≠ "" :=
  session_invariant okRemote ":9000"
    ["namespace create tmp", "namespace delete tmp", "namespace use acct", "queue use orders"]
    (by decide) (by decide)

end Kokaq
